import Mathlib

/-!
# Talkie: the `Broadcaster` event hub

A shallow embedding of `src/shared/broadcaster.js`, and of `getVoices` and
`resolveVoice` of `src/shared/voices.js`, with theorems about them.

Modelling conventions.

* The two plain objects `actionRespondingMap` and `actionListeningMap` are
  dictionaries keyed by the action name.  Their own properties are embedded as
  functions from the key to an optional entry (`none`: no own property).  A
  plain object also inherits the properties of `Object.prototype`
  (`objectPrototypeKeys`): a read of such a name on either registry yields the
  inherited value, which is truthy and is neither a registered handler nor an
  array.  No operation of the broadcaster ever stores an own property under an
  inherited name, and the state type records that.
* A handler is a JavaScript function value; the broadcaster only ever compares
  handlers by reference (`!==`), tests them with `isDeadWrapper` and calls them.
  A handler is therefore a reference (`Handler`) and its behaviour is supplied
  by the hosting page (`Host`).  A function value is always truthy.
* A handler call may re-enter the broadcaster, so it is a transformer of the
  registries that also yields the promise the call settles to.
* A promise is embedded by the way it settles (`Promise`).  One call of
  `broadcastEvent` is embedded as one atomic step: listeners are dispatched in
  array order by `Array.prototype.map`, then `Promise.all` is awaited, then the
  responding handler is called.
* The calls made to handlers are recorded in a list (`Call`), in call order.
* Logging (`logTrace`, `logWarn`, `logError`) has no effect on the registries
  or on the outcome and is left out.
-/

namespace Talkie

/-- A reference to a JavaScript function used as a handler; equality is
reference identity. -/
structure Handler where
  ref : Nat
  deriving DecidableEq, Repr

/-- The JavaScript values that travel as event data and as handler results. -/
inductive Value where
  | undefined
  | null
  | bool (b : Bool)
  | number (n : Int)
  | string (s : String)
  deriving DecidableEq, Repr

/-- The errors a promise can be rejected with.  The first four are the
`new Error(...)` objects thrown by the broadcaster, with the action name that
is appended to the message; `thrown` is whatever a handler threw; the last one
is the `new Error(...)` of `src/shared/voices.js`. -/
inductive Error where
  /-- Message: "No responding handler registered for action: " + actionName -/
  | noRespondingHandler (actionName : String)
  /-- Message: "Only one responding handler allowed at the moment for action: " + actionName -/
  | onlyOneRespondingHandler (actionName : String)
  /-- Message: "No listening action(s) registered for action: " + actionName -/
  | noListeningActions (actionName : String)
  /-- Message: "The specific listening action handler was not registered for action: " + actionName -/
  | handlerNotRegistered (actionName : String)
  /-- An error raised by a handler. -/
  | thrown (reason : Value)
  /-- Message: "The browser does not have any voices installed." (`voices.js`) -/
  | noVoicesInstalled
  /-- A `TypeError` raised by the engine when a value that is not a function is
  called, such as the missing method `map`, `filter` or `concat` of a value
  inherited from `Object.prototype`; its message depends on the engine. -/
  | typeError
  deriving DecidableEq, Repr

/-- The message of the `Error` objects created by the broadcaster. -/
def Error.message : Error → Option String
  | .noRespondingHandler actionName =>
    some ("No responding handler registered for action: " ++ actionName)
  | .onlyOneRespondingHandler actionName =>
    some ("Only one responding handler allowed at the moment for action: " ++ actionName)
  | .noListeningActions actionName =>
    some ("No listening action(s) registered for action: " ++ actionName)
  | .handlerNotRegistered actionName =>
    some ("The specific listening action handler was not registered for action: " ++ actionName)
  | .thrown _ => none
  | .noVoicesInstalled => some "The browser does not have any voices installed."
  | .typeError => none

/-- The way a promise settles: resolved with a value, rejected with an error,
or never settled. -/
inductive Promise (α : Type) where
  | resolved (value : α)
  | rejected (error : Error)
  | pending
  deriving DecidableEq, Repr

/-- The property names that every plain object inherits from
`Object.prototype` (ECMAScript 2017, with its annex B).  An engine may define
more of them (SpiderMonkey had `toSource`, `watch` and `unwatch`); such a name
behaves like the ones listed. -/
def objectPrototypeKeys : List String :=
  ["constructor", "hasOwnProperty", "isPrototypeOf", "propertyIsEnumerable",
    "toLocaleString", "toString", "valueOf", "__proto__", "__defineGetter__",
    "__defineSetter__", "__lookupGetter__", "__lookupSetter__"]

/-- Whether a read of `name` on a plain object without such an own property
yields a value inherited from `Object.prototype`. -/
def isInherited (name : String) : Bool :=
  decide (name ∈ objectPrototypeKeys)

/-- The state of a `Broadcaster` instance: the own properties of its two
registries.  Neither registry has an own property under a name inherited from
`Object.prototype`: both start empty and every assignment of the source is
behind a guard that an inherited name does not pass. -/
structure Broadcaster where
  actionRespondingMap : String → Option Handler
  actionListeningMap : String → Option (List Handler)
  respondingOwn : ∀ name, isInherited name = true → actionRespondingMap name = none
  listeningOwn : ∀ name, isInherited name = true → actionListeningMap name = none

/-- The constructor: both registries start as the empty object `{}`. -/
def Broadcaster.constructor : Broadcaster :=
  { actionRespondingMap := fun _ => none
    actionListeningMap := fun _ => none
    respondingOwn := fun _ _ => rfl
    listeningOwn := fun _ _ => rfl }

/-- The assignment `this.actionRespondingMap[actionName] = value`, or the
`delete` of that property for `none`; the source reaches it only for a name
that is not inherited. -/
def Broadcaster.storeResponding (b : Broadcaster) (actionName : String)
    (own : ¬ isInherited actionName = true) (value : Option Handler) : Broadcaster :=
  { actionRespondingMap := Function.update b.actionRespondingMap actionName value
    actionListeningMap := b.actionListeningMap
    respondingOwn := by
      intro name hname
      have hne : name ≠ actionName := fun h => own (h ▸ hname)
      rw [Function.update_noteq hne]
      exact b.respondingOwn name hname
    listeningOwn := b.listeningOwn }

/-- The assignment `this.actionListeningMap[actionName] = value`; the source
reaches it only for a name that is not inherited. -/
def Broadcaster.storeListening (b : Broadcaster) (actionName : String)
    (own : ¬ isInherited actionName = true) (value : Option (List Handler)) : Broadcaster :=
  { actionRespondingMap := b.actionRespondingMap
    actionListeningMap := Function.update b.actionListeningMap actionName value
    respondingOwn := b.respondingOwn
    listeningOwn := by
      intro name hname
      have hne : name ≠ actionName := fun h => own (h ▸ hname)
      rw [Function.update_noteq hne]
      exact b.listeningOwn name hname }

/-- One call `handler(actionName, actionData)` made by the broadcaster. -/
structure Call where
  handler : Handler
  actionName : String
  actionData : Value
  deriving DecidableEq, Repr

/-- What the hosting environment supplies: `isDeadWrapper` of `./tabs` (not
among the sources, taken as a parameter) and the behaviour of every handler
when it is called with `(actionName, actionData)` on the current registries. -/
structure Host where
  isDeadWrapper : Handler → Bool
  invoke : Handler → String → Value → Broadcaster → Promise Value × Broadcaster

/-- Modelled from the spec: `promiseTry` of `./promise` is not among the
sources.  The operations that use it either fail with an error or complete
with their result, so it turns the body's thrown error into a rejected promise
and the body's return value into a resolved one. -/
def promiseTry {α : Type} (body : Except Error α) : Promise α :=
  match body with
  | .ok value => .resolved value
  | .error error => .rejected error

/-- The revocation closure `killSwitch` returned by a registration: it holds
the action name and the handler it was created for. -/
inductive KillSwitch where
  | responding (actionName : String) (respondingActionHandler : Handler)
  | listening (actionName : String) (listeningActionHandler : Handler)
  deriving DecidableEq, Repr

/-- Source lines 41-51.  For an inherited name the guard of line 44 reads the
inherited value, which is truthy, and the `delete` of line 48 finds no own
property to remove. -/
def unregisterRespondingAction (b : Broadcaster) (actionName : String)
    (_respondingActionHandler : Handler) : Promise Value × Broadcaster :=
  if inherited : isInherited actionName = true then
    (promiseTry (.ok .undefined), b)
  else if (b.actionRespondingMap actionName).isNone then
    (promiseTry (.error (.noRespondingHandler actionName)), b)
  else
    (promiseTry (.ok .undefined), b.storeResponding actionName inherited none)

/-- Source lines 53-70.  For an inherited name the guard of line 56 reads the
inherited value, which is truthy, and throws. -/
def registerRespondingAction (b : Broadcaster) (actionName : String)
    (respondingActionHandler : Handler) : Promise KillSwitch × Broadcaster :=
  if inherited : isInherited actionName = true then
    (promiseTry (.error (.onlyOneRespondingHandler actionName)), b)
  else if (b.actionRespondingMap actionName).isSome then
    (promiseTry (.error (.onlyOneRespondingHandler actionName)), b)
  else
    (promiseTry (.ok (.responding actionName respondingActionHandler)),
      b.storeResponding actionName inherited (some respondingActionHandler))

/-- Source lines 72-90.  The filtered array is stored before the two counts
are compared.  For an inherited name the guard of line 75 reads the inherited
value, which is truthy, and line 81 calls its missing method `filter`: a
`TypeError` is thrown before anything is stored. -/
def unregisterListeningAction (b : Broadcaster) (actionName : String)
    (listeningActionHandler : Handler) : Promise Value × Broadcaster :=
  if inherited : isInherited actionName = true then
    (promiseTry (.error .typeError), b)
  else
    match b.actionListeningMap actionName with
    | none => (promiseTry (.error (.noListeningActions actionName)), b)
    | some registered =>
      let countBefore := registered.length
      let filtered := registered.filter
        (fun registeredListeningActionHandler =>
          decide (registeredListeningActionHandler ≠ listeningActionHandler))
      let stored : Broadcaster := b.storeListening actionName inherited (some filtered)
      let countAfter := filtered.length
      if countBefore = countAfter then
        (promiseTry (.error (.handlerNotRegistered actionName)), stored)
      else
        (promiseTry (.ok .undefined), stored)

/-- Source lines 92-105.  For an inherited name line 95 reads the inherited
value, which is truthy, and calls its missing method `concat`: a `TypeError`
is thrown before anything is stored. -/
def registerListeningAction (b : Broadcaster) (actionName : String)
    (listeningActionHandler : Handler) : Promise KillSwitch × Broadcaster :=
  if inherited : isInherited actionName = true then
    (promiseTry (.error .typeError), b)
  else
    let concatenated := ((b.actionListeningMap actionName).getD []) ++ [listeningActionHandler]
    (promiseTry (.ok (.listening actionName listeningActionHandler)),
      b.storeListening actionName inherited (some concatenated))

/-- Calling a kill switch (source lines 62-65 and 97-100). -/
def KillSwitch.call (killSwitch : KillSwitch) (b : Broadcaster) : Promise Value × Broadcaster :=
  match killSwitch with
  | .responding actionName respondingActionHandler =>
    unregisterRespondingAction b actionName respondingActionHandler
  | .listening actionName listeningActionHandler =>
    unregisterListeningAction b actionName listeningActionHandler

/-- The outcome of dispatching to listeners: the promise of every array entry,
the registries afterwards and the handler calls made. -/
structure Dispatch where
  promises : List (Promise Value)
  broadcaster : Broadcaster
  calls : List Call

/-- The callback given to `listeningActions.map` (source lines 124-140): a dead
wrapper is unregistered instead of called. -/
def dispatchListener (host : Host) (b : Broadcaster) (actionName : String) (actionData : Value)
    (listeningAction : Handler) : Promise Value × Broadcaster × List Call :=
  if host.isDeadWrapper listeningAction then
    let unregistered := unregisterListeningAction b actionName listeningAction
    (unregistered.1, unregistered.2, [])
  else
    let called := host.invoke listeningAction actionName actionData b
    (called.1, called.2, [⟨listeningAction, actionName, actionData⟩])

/-- `listeningActions.map(...)` over the array read at the start of the
broadcast; the registries are threaded through the callbacks in array order. -/
def mapListeningActions (host : Host) (actionName : String) (actionData : Value) :
    List Handler → Broadcaster → Dispatch
  | [], b => ⟨[], b, []⟩
  | listeningAction :: rest, b =>
    let step := dispatchListener host b actionName actionData listeningAction
    let tail := mapListeningActions host actionName actionData rest step.2.1
    ⟨step.1 :: tail.promises, tail.broadcaster, step.2.2 ++ tail.calls⟩

/-- `Promise.all`: rejected as soon as one entry is rejected (with entries that
settle in array order, the error is that of the first rejected entry), resolved
when every entry is resolved, pending otherwise. -/
def promiseAll : List (Promise Value) → Promise (List Value)
  | [] => .resolved []
  | p :: ps =>
    match p with
    | .rejected error => .rejected error
    | .pending =>
      match promiseAll ps with
      | .rejected error => .rejected error
      | .pending => .pending
      | .resolved _ => .pending
    | .resolved value =>
      match promiseAll ps with
      | .rejected error => .rejected error
      | .pending => .pending
      | .resolved values => .resolved (value :: values)

/-- The outcome of one `broadcastEvent`: the returned promise, the registries
afterwards and the handler calls made, in order. -/
structure Broadcast where
  promise : Promise Value
  broadcaster : Broadcaster
  calls : List Call

/-- Source lines 107-166.  The two `.catch` callbacks log and rethrow the same
error, so a rejection passes through unchanged.  For an inherited name both
reads of lines 110-111 yield the inherited value: `respondingAction` is not
`null`, so the early return of line 113 is skipped, and line 124 calls the
missing method `map` of `listeningActions`, which throws a `TypeError` before
any handler is called. -/
def broadcastEvent (host : Host) (b : Broadcaster) (actionName : String) (actionData : Value) :
    Broadcast :=
  if isInherited actionName = true then
    ⟨.rejected .typeError, b, []⟩
  else
    let respondingAction := b.actionRespondingMap actionName
    let listeningActions := (b.actionListeningMap actionName).getD []
    if respondingAction = none ∧ listeningActions.length = 0 then
      ⟨.resolved .undefined, b, []⟩
    else
      let dispatched := mapListeningActions host actionName actionData listeningActions b
      match promiseAll dispatched.promises with
      | .rejected error => ⟨.rejected error, dispatched.broadcaster, dispatched.calls⟩
      | .pending => ⟨.pending, dispatched.broadcaster, dispatched.calls⟩
      | .resolved _ =>
        match respondingAction with
        | none => ⟨.resolved .undefined, dispatched.broadcaster, dispatched.calls⟩
        | some responder =>
          let responded := host.invoke responder actionName actionData dispatched.broadcaster
          let calls := dispatched.calls ++ [⟨responder, actionName, actionData⟩]
          match responded.1 with
          | .rejected error => ⟨.rejected error, responded.2, calls⟩
          | .pending => ⟨.pending, responded.2, calls⟩
          | .resolved _ => ⟨.resolved .undefined, responded.2, calls⟩

/-- The call record of `handler(actionName, actionData)`. -/
def callOf (actionName : String) (actionData : Value) (handler : Handler) : Call :=
  ⟨handler, actionName, actionData⟩

/-- A host whose handlers never touch the registries: each handler settles in
a fixed way. -/
def Host.settling (isDeadWrapper : Handler → Bool) (settles : Handler → Promise Value) : Host :=
  { isDeadWrapper := isDeadWrapper
    invoke := fun handler _ _ b => (settles handler, b) }

/-- A broadcaster in which only `actionName` has entries (and no name has,
when `actionName` is an inherited name, under which nothing can be stored). -/
def Broadcaster.only (actionName : String) (responder : Option Handler)
    (listeners : Option (List Handler)) : Broadcaster :=
  { actionRespondingMap := fun name =>
      if name = actionName ∧ isInherited name = false then responder else none
    actionListeningMap := fun name =>
      if name = actionName ∧ isInherited name = false then listeners else none
    respondingOwn := by
      intro name hname
      simp [hname]
    listeningOwn := by
      intro name hname
      simp [hname] }

/-- A host in which every handler is live and returns the number 42. -/
def answeringHost : Host :=
  Host.settling (fun _ => false) (fun _ => .resolved (.number 42))

/-- A host in which handler 2 is a dead wrapper and the others return `undefined`. -/
def secondDeadHost : Host :=
  Host.settling (fun handler => decide (handler = ⟨2⟩)) (fun _ => .resolved .undefined)

/-- A host in which handler 2 throws, handler 9 (used as responder) throws too,
and the others return `undefined`. -/
def throwingHost : Host :=
  Host.settling (fun _ => false)
    (fun handler =>
      if handler = ⟨2⟩ then .rejected (.thrown (.string "listener failed"))
      else if handler = ⟨9⟩ then .rejected (.thrown (.string "responder failed"))
      else .resolved .undefined)

/-- A host with live handlers that return `undefined`, in which handler 1,
when called, also registers handler 5 as a listener of the action it was called
for, and handler 3, when called, unregisters handler 2 from that action. -/
def reenteringHost : Host :=
  { isDeadWrapper := fun _ => false
    invoke := fun handler actionName _ b =>
      if handler = ⟨1⟩ then (.resolved .undefined, (registerListeningAction b actionName ⟨5⟩).2)
      else if handler = ⟨3⟩ then
        (.resolved .undefined, (unregisterListeningAction b actionName ⟨2⟩).2)
      else (.resolved .undefined, b) }

/-- A broadcaster built by registrations on a new one: listeners 1, 2, 3 under
"before-speaking", listener 7 and responder 8 under "after-speaking". -/
def speakingBroadcaster : Broadcaster :=
  (registerRespondingAction
    (registerListeningAction
      (registerListeningAction
        (registerListeningAction
          (registerListeningAction Broadcaster.constructor "before-speaking" ⟨1⟩).2
          "before-speaking" ⟨2⟩).2
        "before-speaking" ⟨3⟩).2
      "after-speaking" ⟨7⟩).2
    "after-speaking" ⟨8⟩).2

/-- Whether a promise is resolved. -/
def Promise.isResolved {α : Type} : Promise α → Bool
  | .resolved _ => true
  | .rejected _ => false
  | .pending => false

/-- A call that acts on the listening registry: a registration, an
unregistration made by a caller (directly or through a kill switch), or the
unregistration of a dead wrapper made by `broadcastEvent` (source line 135). -/
inductive ListeningOp where
  | register (actionName : String) (listeningActionHandler : Handler)
  | unregister (actionName : String) (listeningActionHandler : Handler)
  | prune (actionName : String) (listeningAction : Handler)
  deriving DecidableEq, Repr

/-- Performs one call on the listening registry; the flag tells whether the
returned promise is resolved. -/
def ListeningOp.perform (op : ListeningOp) (b : Broadcaster) : Bool × Broadcaster :=
  match op with
  | .register actionName listeningActionHandler =>
    ((registerListeningAction b actionName listeningActionHandler).1.isResolved,
      (registerListeningAction b actionName listeningActionHandler).2)
  | .unregister actionName listeningActionHandler =>
    ((unregisterListeningAction b actionName listeningActionHandler).1.isResolved,
      (unregisterListeningAction b actionName listeningActionHandler).2)
  | .prune actionName listeningAction =>
    ((unregisterListeningAction b actionName listeningAction).1.isResolved,
      (unregisterListeningAction b actionName listeningAction).2)

/-- Performs the calls in order; returns the history (every call with its
success flag, oldest first) and the registries afterwards. -/
def performAll : List ListeningOp → Broadcaster → List (ListeningOp × Bool) × Broadcaster
  | [], b => ([], b)
  | op :: ops, b =>
    ((op, (op.perform b).1) :: (performAll ops (op.perform b).2).1,
      (performAll ops (op.perform b).2).2)

/-- Whether a history entry is a call `registerListeningAction(actionName,
handler)`, whatever its outcome. -/
def isRegistration (actionName : String) (handler : Handler) : ListeningOp × Bool → Bool
  | (.register name registered, _) =>
    decide (name = actionName) && decide (registered = handler)
  | _ => false

/-- Whether a history entry is a successful removal of `handler` from the
list of `actionName` (by an unregistration or by the pruning of a dead wrapper). -/
def isRemoval (actionName : String) (handler : Handler) : ListeningOp × Bool → Bool
  | (.unregister name removed, succeeded) =>
    decide (name = actionName) && decide (removed = handler) && succeeded
  | (.prune name removed, succeeded) =>
    decide (name = actionName) && decide (removed = handler) && succeeded
  | _ => false

/-- The number of registrations of `handler` for `actionName` in a history that
have no successful removal of `handler` from `actionName` after them. -/
def registrationsSinceRemoval (actionName : String) (handler : Handler) :
    List (ListeningOp × Bool) → Nat
  | [] => 0
  | entry :: later =>
    (if isRegistration actionName handler entry = true ∧
        later.any (isRemoval actionName handler) = false then 1 else 0)
      + registrationsSinceRemoval actionName handler later

/-! ### `src/shared/voices.js` -/

/-- An installed voice: the object reference and the two properties that
`resolveVoice` reads, both strings. -/
structure Voice where
  ref : Nat
  name : String
  lang : String
  deriving DecidableEq, Repr

/-- The argument of `resolveVoice`: each of `name` and `lang` is a string or is
absent (`null` or `undefined`). -/
structure MappedVoice where
  name : Option String
  lang : Option String
  deriving DecidableEq, Repr

/-- JavaScript truthiness of a property that is a string or absent: only a
non-empty string is truthy. -/
def truthy : Option String → Bool
  | none => false
  | some s => decide (s ≠ "")

/-- The UTF-16 code units of a character: one unit in the basic plane, a
surrogate pair above it. -/
def utf16 (c : Char) : List Nat :=
  if c.toNat < 65536 then [c.toNat]
  else [55296 + (c.toNat - 65536) / 1024, 56320 + (c.toNat - 65536) % 1024]

/-- The UTF-16 code units of a string, which are what a JavaScript string
consists of and what its positions and lengths count.  A Lean `String` is a
sequence of code points, so the strings of the model are the well-formed ones
(no unpaired surrogate); on these, equality of strings is equality of their
code units. -/
def codeUnits (s : String) : List Nat :=
  s.data.flatMap utf16

/-- The method `substr(start, length)` of a string, for arguments that are not
negative: the code units from position `start`, at most `length` of them. -/
def substr (s : String) (start length : Nat) : List Nat :=
  ((codeUnits s).drop start).take length

/-- Source lines 29-42.  `getBackgroundPage` of `../shared/tabs` is not among
the sources; `allVoices` is what `background.getAllVoices()` returns, `none`
for a falsy result. -/
def getVoices (allVoices : Option (List Voice)) : Promise (List Voice) :=
  match allVoices with
  | none => .rejected .noVoicesInstalled
  | some voices =>
    if voices.length = 0 then .rejected .noVoicesInstalled else .resolved voices

/-- The filter callback of source line 67. -/
def matchesName (mappedVoice : MappedVoice) (voice : Voice) : Bool :=
  truthy mappedVoice.name && decide (some voice.name = mappedVoice.name)

/-- The filter callback of source line 68. -/
def matchesLanguage (mappedVoice : MappedVoice) (voice : Voice) : Bool :=
  truthy mappedVoice.lang && decide (some voice.lang = mappedVoice.lang)

/-- The filter callback of source line 69. -/
def matchesLanguagePrefix (mappedVoice : MappedVoice) (voice : Voice) : Bool :=
  truthy mappedVoice.lang &&
    decide (some (substr voice.lang 0 2) = mappedVoice.lang.map (fun lang => substr lang 0 2))

/-- Source lines 62-91; `none` is `null`. -/
def resolveVoice (allVoices : Option (List Voice)) (mappedVoice : MappedVoice) :
    Promise (Option Voice) :=
  match getVoices allVoices with
  | .rejected error => .rejected error
  | .pending => .pending
  | .resolved voices =>
    let actualMatchingVoicesByName := voices.filter (matchesName mappedVoice)
    let actualMatchingVoicesByLanguage := voices.filter (matchesLanguage mappedVoice)
    let actualMatchingVoicesByLanguagePrefix := voices.filter (matchesLanguagePrefix mappedVoice)
    let resolvedVoices := [] ++ actualMatchingVoicesByName ++ actualMatchingVoicesByLanguage
      ++ actualMatchingVoicesByLanguagePrefix
    if resolvedVoices.length = 0 then .resolved none
    else .resolved resolvedVoices.head?

/-- The voice that the claim about `resolveVoice` names, in the claim's words:
the first voice whose name equals `mappedVoice.name` when that name is
non-empty and such a voice exists; otherwise the first voice whose lang equals
`mappedVoice.lang`; otherwise the first voice whose lang shares its first two
characters with `mappedVoice.lang`; `none` when there is no such voice. -/
def firstCandidateAsClaimed (voices : List Voice) (mappedVoice : MappedVoice) : Option Voice :=
  ((voices.find? (fun voice =>
      truthy mappedVoice.name && decide (some voice.name = mappedVoice.name))).or
    (voices.find? (fun voice => decide (some voice.lang = mappedVoice.lang)))).or
    (voices.find? (fun voice =>
      decide (some (substr voice.lang 0 2) = mappedVoice.lang.map (fun lang => substr lang 0 2))))

/-- Three installed voices used in examples. -/
def exampleVoices : List Voice :=
  [⟨0, "Alice", "en-US"⟩, ⟨1, "Bob", "en-GB"⟩, ⟨2, "Carla", "sv-SE"⟩]

end Talkie

namespace Talkie

/-! ## Auxiliary lemmas -/

theorem not_inherited_of_responding (b : Broadcaster) (E : String) (r : Handler)
    (hr : b.actionRespondingMap E = some r) : ¬ isInherited E = true := by
  intro h
  rw [b.respondingOwn E h] at hr
  exact Option.noConfusion hr

theorem not_inherited_of_listening (b : Broadcaster) (E : String) (L : List Handler)
    (hL : b.actionListeningMap E = some L) : ¬ isInherited E = true := by
  intro h
  rw [b.listeningOwn E h] at hL
  exact Option.noConfusion hL

@[simp] theorem storeResponding_actionRespondingMap (b : Broadcaster) (E : String)
    (own : ¬ isInherited E = true) (value : Option Handler) :
    (b.storeResponding E own value).actionRespondingMap
      = Function.update b.actionRespondingMap E value := rfl

@[simp] theorem storeResponding_actionListeningMap (b : Broadcaster) (E : String)
    (own : ¬ isInherited E = true) (value : Option Handler) :
    (b.storeResponding E own value).actionListeningMap = b.actionListeningMap := rfl

@[simp] theorem storeListening_actionListeningMap (b : Broadcaster) (E : String)
    (own : ¬ isInherited E = true) (value : Option (List Handler)) :
    (b.storeListening E own value).actionListeningMap
      = Function.update b.actionListeningMap E value := rfl

@[simp] theorem storeListening_actionRespondingMap (b : Broadcaster) (E : String)
    (own : ¬ isInherited E = true) (value : Option (List Handler)) :
    (b.storeListening E own value).actionRespondingMap = b.actionRespondingMap := rfl

/-- Two broadcasters with the same own properties are the same state. -/
theorem Broadcaster.eq_of_maps (b1 b2 : Broadcaster)
    (hr : b1.actionRespondingMap = b2.actionRespondingMap)
    (hl : b1.actionListeningMap = b2.actionListeningMap) : b1 = b2 := by
  cases b1
  cases b2
  simp only at hr hl
  subst hr
  subst hl
  rfl

theorem storeListening_eq_self (b : Broadcaster) (E : String) (own : ¬ isInherited E = true)
    (value : Option (List Handler)) (hv : b.actionListeningMap E = value) :
    b.storeListening E own value = b := by
  apply Broadcaster.eq_of_maps
  · rfl
  · rw [storeListening_actionListeningMap, ← hv]
    exact Function.update_eq_self E b.actionListeningMap

/-- A name that is not inherited takes the path of the own properties in
`broadcastEvent`. -/
theorem broadcastEvent_own (host : Host) (b : Broadcaster) (E : String) (data : Value)
    (hE : ¬ isInherited E = true) :
    broadcastEvent host b E data =
      if b.actionRespondingMap E = none ∧ ((b.actionListeningMap E).getD []).length = 0 then
        ⟨.resolved .undefined, b, []⟩
      else
        match promiseAll
          (mapListeningActions host E data ((b.actionListeningMap E).getD []) b).promises with
        | .rejected error =>
          ⟨.rejected error,
            (mapListeningActions host E data ((b.actionListeningMap E).getD []) b).broadcaster,
            (mapListeningActions host E data ((b.actionListeningMap E).getD []) b).calls⟩
        | .pending =>
          ⟨.pending,
            (mapListeningActions host E data ((b.actionListeningMap E).getD []) b).broadcaster,
            (mapListeningActions host E data ((b.actionListeningMap E).getD []) b).calls⟩
        | .resolved _ =>
          match b.actionRespondingMap E with
          | none =>
            ⟨.resolved .undefined,
              (mapListeningActions host E data ((b.actionListeningMap E).getD [])
                b).broadcaster,
              (mapListeningActions host E data ((b.actionListeningMap E).getD []) b).calls⟩
          | some responder =>
            match (host.invoke responder E data
              (mapListeningActions host E data ((b.actionListeningMap E).getD [])
                b).broadcaster).1 with
            | .rejected error =>
              ⟨.rejected error,
                (host.invoke responder E data
                  (mapListeningActions host E data ((b.actionListeningMap E).getD [])
                    b).broadcaster).2,
                (mapListeningActions host E data ((b.actionListeningMap E).getD []) b).calls
                  ++ [⟨responder, E, data⟩]⟩
            | .pending =>
              ⟨.pending,
                (host.invoke responder E data
                  (mapListeningActions host E data ((b.actionListeningMap E).getD [])
                    b).broadcaster).2,
                (mapListeningActions host E data ((b.actionListeningMap E).getD []) b).calls
                  ++ [⟨responder, E, data⟩]⟩
            | .resolved _ =>
              ⟨.resolved .undefined,
                (host.invoke responder E data
                  (mapListeningActions host E data ((b.actionListeningMap E).getD [])
                    b).broadcaster).2,
                (mapListeningActions host E data ((b.actionListeningMap E).getD []) b).calls
                  ++ [⟨responder, E, data⟩]⟩ := by
  unfold broadcastEvent
  rw [if_neg hE]

/-- A broadcast of an inherited name is rejected with a `TypeError` before any
handler is called, and stores nothing. -/
theorem broadcastEvent_inherited (host : Host) (b : Broadcaster) (E : String) (data : Value)
    (hE : isInherited E = true) :
    broadcastEvent host b E data = ⟨.rejected .typeError, b, []⟩ := by
  unfold broadcastEvent
  rw [if_pos hE]

theorem promiseAll_resolved_of_forall (ps : List (Promise Value))
    (h : ∀ p ∈ ps, ∃ v, p = .resolved v) : ∃ vs, promiseAll ps = .resolved vs := by
  induction ps with
  | nil => exact ⟨[], rfl⟩
  | cons p ps ih =>
    obtain ⟨v, hv⟩ := h p (List.mem_cons_self _ _)
    obtain ⟨vs, hvs⟩ := ih (fun q hq => h q (List.mem_cons_of_mem _ hq))
    exact ⟨v :: vs, by simp [promiseAll, hv, hvs]⟩

theorem promiseAll_rejected_of_mem (ps : List (Promise Value)) (e : Error)
    (h : Promise.rejected e ∈ ps) : ∃ e1, promiseAll ps = .rejected e1 := by
  induction ps with
  | nil => simp at h
  | cons p ps ih =>
    rcases List.mem_cons.mp h with hp | hp
    · exact ⟨e, by simp [promiseAll, ← hp]⟩
    · obtain ⟨e1, he1⟩ := ih hp
      cases p with
      | rejected e2 => exact ⟨e2, by simp [promiseAll]⟩
      | resolved v => exact ⟨e1, by simp [promiseAll, he1]⟩
      | pending => exact ⟨e1, by simp [promiseAll, he1]⟩

/-- The calls made while dispatching are exactly the live entries of the
array, once per entry and in array order. -/
theorem mapListeningActions_calls (host : Host) (actionName : String) (actionData : Value)
    (listeningActions : List Handler) (b : Broadcaster) :
    (mapListeningActions host actionName actionData listeningActions b).calls
      = (listeningActions.filter (fun h => !host.isDeadWrapper h)).map
          (callOf actionName actionData) := by
  induction listeningActions generalizing b with
  | nil => rfl
  | cons h rest ih =>
    by_cases hd : host.isDeadWrapper h = true
    · simp [mapListeningActions, dispatchListener, hd, ih]
    · simp [mapListeningActions, dispatchListener, hd, ih, callOf]

theorem mapListeningActions_promises_resolved (host : Host) (actionName : String)
    (actionData : Value) (listeningActions : List Handler) (b : Broadcaster)
    (hlive : ∀ l ∈ listeningActions, host.isDeadWrapper l = false)
    (hok : ∀ l ∈ listeningActions, ∀ st, ∃ v, (host.invoke l actionName actionData st).1 = .resolved v) :
    ∀ p ∈ (mapListeningActions host actionName actionData listeningActions b).promises,
      ∃ v, p = .resolved v := by
  induction listeningActions generalizing b with
  | nil => intro p hp; simp [mapListeningActions] at hp
  | cons h rest ih =>
    intro p hp
    have hd := hlive h (List.mem_cons_self _ _)
    simp only [mapListeningActions, dispatchListener, hd, List.mem_cons] at hp
    rcases hp with hp | hp
    · rw [hp]; exact hok h (List.mem_cons_self _ _) b
    · exact ih _ (fun l hl => hlive l (List.mem_cons_of_mem _ hl))
        (fun l hl => hok l (List.mem_cons_of_mem _ hl)) p hp

/-- With live, succeeding listeners and a responder, the broadcast dispatches
to every listener, then calls the responder on the registries the listeners
left behind. -/
theorem broadcastEvent_of_listeners_resolved (host : Host) (b : Broadcaster) (E : String)
    (data : Value) (r : Handler) (L : List Handler)
    (hr : b.actionRespondingMap E = some r)
    (hL : (b.actionListeningMap E).getD [] = L)
    (hlive : ∀ l ∈ L, host.isDeadWrapper l = false)
    (hok : ∀ l ∈ L, ∀ st, ∃ v, (host.invoke l E data st).1 = .resolved v) :
    ∃ st,
      (broadcastEvent host b E data).calls = L.map (callOf E data) ++ [callOf E data r] ∧
      (broadcastEvent host b E data).promise =
        (match (host.invoke r E data st).1 with
          | .resolved _ => .resolved .undefined
          | .rejected error => .rejected error
          | .pending => .pending) := by
  obtain ⟨vs, hvs⟩ := promiseAll_resolved_of_forall _
    (mapListeningActions_promises_resolved host E data L b hlive hok)
  have hcalls := mapListeningActions_calls host E data L b
  have hfilter : L.filter (fun h => !host.isDeadWrapper h) = L := by
    apply List.filter_eq_self.mpr
    intro l hl
    simp [hlive l hl]
  rw [hfilter] at hcalls
  refine ⟨(mapListeningActions host E data L b).broadcaster, ?_⟩
  rw [broadcastEvent_own host b E data (not_inherited_of_responding b E r hr)]
  simp only [hr, hL, hvs, hcalls]
  cases hres : (host.invoke r E data (mapListeningActions host E data L b).broadcaster).1 <;>
    simp [callOf]

/-- Apart from the call of the responder, a broadcast does what the dispatch
to the listeners does: either no responder was called, or the registered
responder was called last, on the registries the listeners left behind. -/
theorem broadcastEvent_after_dispatch (host : Host) (b : Broadcaster) (E : String)
    (data : Value) :
    ((broadcastEvent host b E data).calls
        = (mapListeningActions host E data ((b.actionListeningMap E).getD []) b).calls ∧
      (broadcastEvent host b E data).broadcaster
        = (mapListeningActions host E data ((b.actionListeningMap E).getD []) b).broadcaster) ∨
    (∃ r, b.actionRespondingMap E = some r ∧
      (broadcastEvent host b E data).calls
        = (mapListeningActions host E data ((b.actionListeningMap E).getD []) b).calls
            ++ [callOf E data r] ∧
      (broadcastEvent host b E data).broadcaster
        = (host.invoke r E data
            (mapListeningActions host E data ((b.actionListeningMap E).getD []) b).broadcaster).2) := by
  by_cases hE : isInherited E = true
  · left
    rw [broadcastEvent_inherited host b E data hE]
    simp [b.listeningOwn E hE, mapListeningActions]
  rw [broadcastEvent_own host b E data hE]
  by_cases hnone : b.actionRespondingMap E = none ∧ ((b.actionListeningMap E).getD []).length = 0
  · left
    have hnil : (b.actionListeningMap E).getD [] = [] := List.length_eq_zero.mp hnone.2
    simp [hnone.1, hnil, mapListeningActions]
  · simp only [hnone, if_false]
    cases hall : promiseAll
        (mapListeningActions host E data ((b.actionListeningMap E).getD []) b).promises with
    | rejected e => left; simp
    | pending => left; simp
    | resolved vs =>
      cases hresp : b.actionRespondingMap E with
      | none => left; simp
      | some r =>
        right
        refine ⟨r, rfl, ?_⟩
        cases hres : (host.invoke r E data
          (mapListeningActions host E data ((b.actionListeningMap E).getD []) b).broadcaster).1 <;>
          simp [hres, callOf]

/-- A live listener in the array that fails leaves a rejected promise among
the promises given to `Promise.all`. -/
theorem mapListeningActions_promises_rejected (host : Host) (actionName : String)
    (actionData : Value) (listeningActions : List Handler) (b : Broadcaster) (f : Handler)
    (hmem : f ∈ listeningActions) (hlive : host.isDeadWrapper f = false)
    (hfail : ∀ st, ∃ e, (host.invoke f actionName actionData st).1 = .rejected e) :
    ∃ e, Promise.rejected e ∈
      (mapListeningActions host actionName actionData listeningActions b).promises := by
  induction listeningActions generalizing b with
  | nil => simp at hmem
  | cons h rest ih =>
    rcases List.mem_cons.mp hmem with hf | hf
    · obtain ⟨e, he⟩ := hfail b
      refine ⟨e, ?_⟩
      subst hf
      simp [mapListeningActions, dispatchListener, hlive, he]
    · obtain ⟨e, he⟩ := ih (dispatchListener host b actionName actionData h).2.1 hf
      exact ⟨e, by simp only [mapListeningActions]; exact List.mem_cons_of_mem _ he⟩

/-- Unregistering a handler that occurs in the list stores the filtered list
and succeeds. -/
theorem unregisterListeningAction_of_mem (b : Broadcaster) (E : String) (h : Handler)
    (L : List Handler) (hL : b.actionListeningMap E = some L) (hmem : h ∈ L) :
    unregisterListeningAction b E h
      = (.resolved .undefined,
          b.storeListening E (not_inherited_of_listening b E L hL)
            (some (L.filter (fun x => decide (x ≠ h))))) := by
  have hlen : L.length ≠ (L.filter (fun x => decide (x ≠ h))).length := by
    intro heq
    have hall := List.filter_length_eq_length.mp heq.symm h hmem
    simp at hall
  unfold unregisterListeningAction
  rw [dif_neg (not_inherited_of_listening b E L hL)]
  simp only [hL, hlen, if_false, promiseTry]

/-- Dispatching over the rest of the array resolves every promise when the
live entries succeed without touching the registries and every dead entry
still to come occurs once and is still in the current listener list. -/
theorem mapListeningActions_resolved_of_distinct_dead (host : Host) (E : String) (data : Value)
    (rest : List Handler) (b : Broadcaster) (cur : List Handler)
    (hcur : b.actionListeningMap E = some cur)
    (hin : ∀ d ∈ rest, host.isDeadWrapper d = true → d ∈ cur)
    (hnodup : (rest.filter host.isDeadWrapper).Nodup)
    (hok : ∀ l ∈ rest, host.isDeadWrapper l = false →
      ∀ st, ∃ v, host.invoke l E data st = (.resolved v, st)) :
    ∀ p ∈ (mapListeningActions host E data rest b).promises, ∃ v, p = .resolved v := by
  induction rest generalizing b cur with
  | nil => intro p hp; simp [mapListeningActions] at hp
  | cons h rest ih =>
    intro p hp
    by_cases hd : host.isDeadWrapper h = true
    · have hmem : h ∈ cur := hin h (List.mem_cons_self _ _) hd
      have hun := unregisterListeningAction_of_mem b E h cur hcur hmem
      simp only [mapListeningActions, dispatchListener, hd, if_true, hun, List.mem_cons] at hp
      rw [List.filter_cons_of_pos hd, List.nodup_cons] at hnodup
      rcases hp with hp | hp
      · exact ⟨.undefined, hp⟩
      · refine ih _ (cur.filter (fun x => decide (x ≠ h))) (by simp) ?_ hnodup.2
          (fun l hl => hok l (List.mem_cons_of_mem _ hl)) p hp
        intro d hdmem hddead
        have hne : d ≠ h := by
          intro hdh
          exact hnodup.1 (hdh ▸ List.mem_filter.mpr ⟨hdmem, hddead⟩)
        exact List.mem_filter.mpr ⟨hin d (List.mem_cons_of_mem _ hdmem) hddead, by simpa using hne⟩
    · have hlive : host.isDeadWrapper h = false := by simpa using hd
      obtain ⟨v, hv⟩ := hok h (List.mem_cons_self _ _) hlive b
      simp only [mapListeningActions, dispatchListener, hlive, hv, List.mem_cons] at hp
      rw [List.filter_cons_of_neg hd] at hnodup
      rcases hp with hp | hp
      · exact ⟨v, by simpa using hp⟩
      · exact ih b cur hcur (fun d hdmem => hin d (List.mem_cons_of_mem _ hdmem)) hnodup
          (fun l hl => hok l (List.mem_cons_of_mem _ hl)) p (by simpa using hp)

/-- When every dead reference occurs once in the listener list of E, the live
listeners succeed without touching the registries and the responder (if any)
succeeds, the broadcast resolves to `undefined`. -/
theorem broadcastEvent_resolves_of_distinct_dead (host : Host) (b : Broadcaster) (E : String)
    (data : Value) (L : List Handler)
    (hL : b.actionListeningMap E = some L)
    (hnodup : (L.filter host.isDeadWrapper).Nodup)
    (hok : ∀ l ∈ L, host.isDeadWrapper l = false →
      ∀ st, ∃ v, host.invoke l E data st = (.resolved v, st))
    (hrok : ∀ r, b.actionRespondingMap E = some r →
      ∀ st, ∃ v, (host.invoke r E data st).1 = .resolved v) :
    (broadcastEvent host b E data).promise = .resolved .undefined := by
  obtain ⟨vs, hvs⟩ := promiseAll_resolved_of_forall _
    (mapListeningActions_resolved_of_distinct_dead host E data L b L hL (fun d hd _ => hd)
      hnodup hok)
  rw [broadcastEvent_own host b E data (not_inherited_of_listening b E L hL)]
  simp only [hL, Option.getD_some, hvs]
  split
  · rfl
  · cases hresp : b.actionRespondingMap E with
    | none => rfl
    | some r =>
      obtain ⟨v, hv⟩ := hrok r hresp (mapListeningActions host E data L b).broadcaster
      simp [hv]

theorem speak_own : isInherited "speak" = false := by decide

theorem stop_own : isInherited "stop" = false := by decide

theorem before_speaking_own : isInherited "before-speaking" = false := by decide

theorem after_speaking_own : isInherited "after-speaking" = false := by decide

theorem only_actionRespondingMap_self (E : String) (responder : Option Handler)
    (listeners : Option (List Handler)) (hE : isInherited E = false) :
    (Broadcaster.only E responder listeners).actionRespondingMap E = responder := by
  simp [Broadcaster.only, hE]

theorem only_actionListeningMap_self (E : String) (responder : Option Handler)
    (listeners : Option (List Handler)) (hE : isInherited E = false) :
    (Broadcaster.only E responder listeners).actionListeningMap E = listeners := by
  simp [Broadcaster.only, hE]

theorem only_actionRespondingMap_other (E name : String) (responder : Option Handler)
    (listeners : Option (List Handler)) (hne : name ≠ E) :
    (Broadcaster.only E responder listeners).actionRespondingMap name = none := by
  simp [Broadcaster.only, hne]

theorem only_actionListeningMap_other (E name : String) (responder : Option Handler)
    (listeners : Option (List Handler)) (hne : name ≠ E) :
    (Broadcaster.only E responder listeners).actionListeningMap name = none := by
  simp [Broadcaster.only, hne]

theorem toString_inherited : isInherited "toString" = true := by decide

theorem constructor_inherited : isInherited "constructor" = true := by decide

/-! ## C1 -/

/-- C1, the input on which the code departs from it: on a new Broadcaster
handler 9 is registered as the responder of "before-speaking", there is no
listener, and handler 9 returns 42 whenever it is called.  Then
`broadcastEvent("before-speaking", undefined)` calls handler 9 and resolves to
`undefined`: the continuation of source lines 150-154 drops the value that the
continuation of lines 143-149 returned. -/
theorem broadcastEvent_drops_responder_value :
    (registerRespondingAction Broadcaster.constructor "before-speaking"
        ⟨9⟩).2.actionRespondingMap "before-speaking" = some ⟨9⟩ ∧
      (∀ st, (answeringHost.invoke ⟨9⟩ "before-speaking" .undefined st).1
        = .resolved (.number 42)) ∧
      (broadcastEvent answeringHost
        (registerRespondingAction Broadcaster.constructor "before-speaking" ⟨9⟩).2
        "before-speaking" .undefined).calls = [callOf "before-speaking" .undefined ⟨9⟩] ∧
      (broadcastEvent answeringHost
        (registerRespondingAction Broadcaster.constructor "before-speaking" ⟨9⟩).2
        "before-speaking" .undefined).promise = .resolved .undefined := by
  have hr : (registerRespondingAction Broadcaster.constructor "before-speaking"
      ⟨9⟩).2.actionRespondingMap "before-speaking" = some ⟨9⟩ := by
    simp [registerRespondingAction, before_speaking_own, Broadcaster.constructor]
  have hl : (registerRespondingAction Broadcaster.constructor "before-speaking"
      ⟨9⟩).2.actionListeningMap "before-speaking" = none := by
    simp [registerRespondingAction, before_speaking_own, Broadcaster.constructor]
  refine ⟨hr, fun _ => rfl, ?_, ?_⟩ <;>
    simp [broadcastEvent, before_speaking_own, hr, hl, mapListeningActions, promiseAll,
      answeringHost, Host.settling, callOf]

/-! ## C2 -/

/-- C2: when E already has a responder r1, `registerRespondingAction(E, r2)`
is rejected for every r2 and both registries are unchanged, so r1 is still
the responder of E. -/
theorem registerRespondingAction_duplicate_fails (b : Broadcaster) (E : String)
    (r1 r2 : Handler) (h : b.actionRespondingMap E = some r1) :
    registerRespondingAction b E r2 = (.rejected (.onlyOneRespondingHandler E), b) ∧
      (registerRespondingAction b E r2).2.actionRespondingMap E = some r1 := by
  unfold registerRespondingAction
  rw [dif_neg (not_inherited_of_responding b E r1 h)]
  simp [h, promiseTry]

theorem registerRespondingAction_duplicate_fails_witness :
    registerRespondingAction (registerRespondingAction Broadcaster.constructor "speak" ⟨1⟩).2
        "speak" ⟨2⟩
      = (.rejected (.onlyOneRespondingHandler "speak"),
          (registerRespondingAction Broadcaster.constructor "speak" ⟨1⟩).2) ∧
      (registerRespondingAction (registerRespondingAction Broadcaster.constructor "speak" ⟨1⟩).2
        "speak" ⟨2⟩).2.actionRespondingMap "speak" = some ⟨1⟩ :=
  registerRespondingAction_duplicate_fails
    (registerRespondingAction Broadcaster.constructor "speak" ⟨1⟩).2 "speak" ⟨1⟩ ⟨2⟩
    (by simp [registerRespondingAction, speak_own, Broadcaster.constructor])

/-! ## C3 -/

/-- For a name that is not inherited from `Object.prototype` and has no
responder and no listener (no list, or an empty one), the broadcast resolves to
`undefined`, calls no handler and leaves both registries unchanged. -/
theorem broadcastEvent_without_handlers (host : Host) (b : Broadcaster) (E : String)
    (data : Value) (hE : isInherited E = false) (hr : b.actionRespondingMap E = none)
    (hl : b.actionListeningMap E = none ∨ b.actionListeningMap E = some []) :
    broadcastEvent host b E data = ⟨.resolved .undefined, b, []⟩ := by
  rcases hl with hl | hl <;> simp [broadcastEvent, hE, hr, hl]

/-- C3, the input on which the code departs from it: a new Broadcaster has no
responder and no listener for "toString", yet `broadcastEvent("toString", 7)`
is rejected with a `TypeError` instead of resolving to `undefined`: both
registries are plain objects, so the reads of lines 110-111 yield the function
inherited from `Object.prototype`, the early return of line 113 is skipped and
line 124 calls its missing method `map`. -/
theorem broadcastEvent_rejects_inherited_name :
    Broadcaster.constructor.actionRespondingMap "toString" = none ∧
      Broadcaster.constructor.actionListeningMap "toString" = none ∧
      broadcastEvent throwingHost Broadcaster.constructor "toString" (.number 7)
        = ⟨.rejected .typeError, Broadcaster.constructor, []⟩ :=
  ⟨rfl, rfl, broadcastEvent_inherited throwingHost Broadcaster.constructor "toString" (.number 7)
    toString_inherited⟩

/-! ## C4 -/

/-- C4: when E has the listener list L (all entries live and succeeding,
repeats allowed) and a responder r, the calls made by `broadcastEvent(E, data)`
are exactly one call per entry of L, in list order, followed by one call of r. -/
theorem broadcastEvent_calls_listeners_then_responder (host : Host) (b : Broadcaster)
    (E : String) (data : Value) (r : Handler) (L : List Handler)
    (hr : b.actionRespondingMap E = some r)
    (hL : b.actionListeningMap E = some L)
    (hlive : ∀ l ∈ L, host.isDeadWrapper l = false)
    (hok : ∀ l ∈ L, ∀ st, ∃ v, (host.invoke l E data st).1 = .resolved v) :
    (broadcastEvent host b E data).calls = L.map (callOf E data) ++ [callOf E data r] := by
  obtain ⟨st, hcalls, _⟩ :=
    broadcastEvent_of_listeners_resolved host b E data r L hr (by simp [hL]) hlive hok
  exact hcalls

theorem broadcastEvent_calls_listeners_then_responder_witness :
    (broadcastEvent answeringHost (Broadcaster.only "speak" (some ⟨9⟩) (some [⟨1⟩, ⟨2⟩, ⟨1⟩]))
        "speak" .null).calls
      = [⟨⟨1⟩, "speak", .null⟩, ⟨⟨2⟩, "speak", .null⟩, ⟨⟨1⟩, "speak", .null⟩,
          ⟨⟨9⟩, "speak", .null⟩] :=
  broadcastEvent_calls_listeners_then_responder answeringHost
    (Broadcaster.only "speak" (some ⟨9⟩) (some [⟨1⟩, ⟨2⟩, ⟨1⟩])) "speak" .null ⟨9⟩
    [⟨1⟩, ⟨2⟩, ⟨1⟩]
    (only_actionRespondingMap_self _ _ _ speak_own) (only_actionListeningMap_self _ _ _ speak_own)
    (by intro l _; rfl) (by intro l _ st; exact ⟨.number 42, rfl⟩)

/-! ## C5 -/

/-- C5, refuted as stated: it is not the case that for every listener list
[h1, h2, h3] of E with h2 a dead wrapper and h1, h3 live, the broadcast calls
h1 and h3, never calls h2, and leaves [h1, h3] as the list of E with every
other entry unchanged.  On `secondDeadHost`, with the dead handler 2 also
registered as the responder of "speak", the broadcast calls handler 2 after
handlers 1 and 3: the responder is called without a dead-wrapper check. -/
theorem broadcastEvent_calls_dead_responder :
    ¬ (∀ (host : Host) (b : Broadcaster) (E : String) (data : Value) (h1 h2 h3 : Handler),
        b.actionListeningMap E = some [h1, h2, h3] →
        host.isDeadWrapper h2 = true →
        host.isDeadWrapper h1 = false → host.isDeadWrapper h3 = false →
        callOf E data h1 ∈ (broadcastEvent host b E data).calls ∧
          callOf E data h3 ∈ (broadcastEvent host b E data).calls ∧
          (∀ c ∈ (broadcastEvent host b E data).calls, c.handler ≠ h2) ∧
          (broadcastEvent host b E data).broadcaster.actionListeningMap E = some [h1, h3] ∧
          (∀ name, name ≠ E →
            (broadcastEvent host b E data).broadcaster.actionListeningMap name
              = b.actionListeningMap name) ∧
          (broadcastEvent host b E data).broadcaster.actionRespondingMap
            = b.actionRespondingMap) := by
  intro h
  have h1 := (h secondDeadHost (Broadcaster.only "speak" (some ⟨2⟩) (some [⟨1⟩, ⟨2⟩, ⟨3⟩]))
    "speak" .null ⟨1⟩ ⟨2⟩ ⟨3⟩ (only_actionListeningMap_self _ _ _ speak_own)
    (by decide) (by decide) (by decide)).2.2.1 (callOf "speak" .null ⟨2⟩)
  have hcalls : (broadcastEvent secondDeadHost
      (Broadcaster.only "speak" (some ⟨2⟩) (some [⟨1⟩, ⟨2⟩, ⟨3⟩])) "speak" .null).calls
      = [callOf "speak" .null ⟨1⟩, callOf "speak" .null ⟨3⟩, callOf "speak" .null ⟨2⟩] := by
    simp [broadcastEvent, speak_own, only_actionRespondingMap_self, only_actionListeningMap_self,
      mapListeningActions, dispatchListener, unregisterListeningAction, promiseAll, promiseTry,
      secondDeadHost, Host.settling, List.filter, callOf]
  rw [hcalls] at h1
  exact h1 (by simp) rfl

/-- C5, as amended: when the listener list of E is [h1, h2, h3] with h2 a dead
wrapper and h1, h3 live (hence other references than h2), and h2 is not also
the responder of E, `broadcastEvent(E, data)` calls h1 and then h3 with
`(E, data)` and never calls h2; and when the handlers it calls (h1, h3 and the
responder of E, if any) leave the registries alone, afterwards the listener
list of E is [h1, h3] while every other listener list and the responder table
are unchanged. -/
theorem broadcastEvent_prunes_dead_listener (host : Host) (b : Broadcaster) (E : String)
    (data : Value) (h1 h2 h3 : Handler)
    (hL : b.actionListeningMap E = some [h1, h2, h3])
    (hdead : host.isDeadWrapper h2 = true)
    (hlive1 : host.isDeadWrapper h1 = false) (hlive3 : host.isDeadWrapper h3 = false)
    (hresp : b.actionRespondingMap E ≠ some h2) :
    (broadcastEvent host b E data).calls.take 2 = [callOf E data h1, callOf E data h3] ∧
      (∀ c ∈ (broadcastEvent host b E data).calls, c.handler ≠ h2) ∧
      ((∀ st, (host.invoke h1 E data st).2 = st) →
        (∀ st, (host.invoke h3 E data st).2 = st) →
        (∀ r, b.actionRespondingMap E = some r → ∀ st, (host.invoke r E data st).2 = st) →
        (broadcastEvent host b E data).broadcaster.actionListeningMap E = some [h1, h3] ∧
          (∀ name, name ≠ E →
            (broadcastEvent host b E data).broadcaster.actionListeningMap name
              = b.actionListeningMap name) ∧
          (broadcastEvent host b E data).broadcaster.actionRespondingMap
            = b.actionRespondingMap) := by
  have hne1 : h1 ≠ h2 := by
    intro h; rw [h, hdead] at hlive1; exact Bool.noConfusion hlive1
  have hne3 : h3 ≠ h2 := by
    intro h; rw [h, hdead] at hlive3; exact Bool.noConfusion hlive3
  have hmapcalls : (mapListeningActions host E data [h1, h2, h3] b).calls
      = [callOf E data h1, callOf E data h3] := by
    rw [mapListeningActions_calls]
    simp [List.filter, hdead, hlive1, hlive3]
  have hgetD : (b.actionListeningMap E).getD [] = [h1, h2, h3] := by simp [hL]
  have hcases := broadcastEvent_after_dispatch host b E data
  rw [hgetD, hmapcalls] at hcases
  refine ⟨?_, ?_, ?_⟩
  · rcases hcases with ⟨hc, _⟩ | ⟨r, _, hc, _⟩ <;> rw [hc] <;> rfl
  · intro c hcmem
    rcases hcases with ⟨hc, _⟩ | ⟨r, hr, hc, _⟩
    · rw [hc] at hcmem
      simp only [List.mem_cons, List.mem_singleton, List.not_mem_nil, or_false] at hcmem
      rcases hcmem with h | h <;> simp [h, callOf, hne1, hne3]
    · have hrne : r ≠ h2 := fun h => hresp (h ▸ hr)
      rw [hc] at hcmem
      simp only [List.cons_append, List.nil_append, List.mem_cons, List.mem_singleton,
        List.not_mem_nil, or_false] at hcmem
      rcases hcmem with h | h | h <;> simp [h, callOf, hne1, hne3, hrne]
  · intro hkeep1 hkeep3 hkeepr
    have hmapb : (mapListeningActions host E data [h1, h2, h3] b).broadcaster
        = b.storeListening E (not_inherited_of_listening b E _ hL) (some [h1, h3]) := by
      simp [mapListeningActions, dispatchListener, hdead, hlive1, hlive3, hkeep1, hkeep3,
        unregisterListeningAction_of_mem b E h2 [h1, h2, h3] hL (by simp), List.filter, hne1,
        hne3]
    rw [hmapb] at hcases
    rcases hcases with ⟨_, hb⟩ | ⟨r, hr, _, hb⟩
    · rw [hb]
      refine ⟨by simp, ?_, rfl⟩
      intro name hname
      simp [Function.update_noteq hname]
    · rw [hb, hkeepr r hr]
      refine ⟨by simp, ?_, rfl⟩
      intro name hname
      simp [Function.update_noteq hname]

theorem broadcastEvent_prunes_dead_listener_witness :
    (broadcastEvent secondDeadHost
        (Broadcaster.only "speak" (some ⟨9⟩) (some [⟨1⟩, ⟨2⟩, ⟨3⟩])) "speak" .null).calls.take 2
      = [callOf "speak" .null ⟨1⟩, callOf "speak" .null ⟨3⟩] ∧
    (∀ c ∈ (broadcastEvent secondDeadHost
        (Broadcaster.only "speak" (some ⟨9⟩) (some [⟨1⟩, ⟨2⟩, ⟨3⟩])) "speak" .null).calls,
      c.handler ≠ ⟨2⟩) ∧
    (broadcastEvent secondDeadHost
        (Broadcaster.only "speak" (some ⟨9⟩) (some [⟨1⟩, ⟨2⟩, ⟨3⟩])) "speak"
        .null).broadcaster.actionListeningMap "speak" = some [⟨1⟩, ⟨3⟩] ∧
    (∀ name, name ≠ "speak" →
      (broadcastEvent secondDeadHost
        (Broadcaster.only "speak" (some ⟨9⟩) (some [⟨1⟩, ⟨2⟩, ⟨3⟩])) "speak"
        .null).broadcaster.actionListeningMap name
        = (Broadcaster.only "speak" (some ⟨9⟩) (some [⟨1⟩, ⟨2⟩, ⟨3⟩])).actionListeningMap name) ∧
    (broadcastEvent secondDeadHost
        (Broadcaster.only "speak" (some ⟨9⟩) (some [⟨1⟩, ⟨2⟩, ⟨3⟩])) "speak"
        .null).broadcaster.actionRespondingMap
      = (Broadcaster.only "speak" (some ⟨9⟩) (some [⟨1⟩, ⟨2⟩, ⟨3⟩])).actionRespondingMap := by
  have hprune := broadcastEvent_prunes_dead_listener secondDeadHost
    (Broadcaster.only "speak" (some ⟨9⟩) (some [⟨1⟩, ⟨2⟩, ⟨3⟩])) "speak" .null ⟨1⟩ ⟨2⟩ ⟨3⟩
    (only_actionListeningMap_self _ _ _ speak_own) (by decide) (by decide) (by decide)
    (by rw [only_actionRespondingMap_self _ _ _ speak_own]; decide)
  exact ⟨hprune.1, hprune.2.1,
    hprune.2.2 (fun _ => rfl) (fun _ => rfl) (fun _ _ _ => rfl)⟩

/-! ## C6 -/

/-- C6, the input on which the code departs from it: after the same listener
reference is registered twice for "speak" and has become a dead wrapper, with
no responder and no other listener, `broadcastEvent("speak", undefined)` is
rejected with the handler-not-registered error.  The first array entry
unregisters every copy of the dead reference, so the unregistration made for
the second entry finds nothing to remove and throws. -/
theorem broadcastEvent_rejects_on_repeated_dead_listener :
    (registerListeningAction (registerListeningAction Broadcaster.constructor "speak" ⟨2⟩).2
        "speak" ⟨2⟩).2.actionListeningMap "speak" = some [⟨2⟩, ⟨2⟩] ∧
    (registerListeningAction (registerListeningAction Broadcaster.constructor "speak" ⟨2⟩).2
        "speak" ⟨2⟩).2.actionRespondingMap "speak" = none ∧
    secondDeadHost.isDeadWrapper ⟨2⟩ = true ∧
    (broadcastEvent secondDeadHost
        (registerListeningAction (registerListeningAction Broadcaster.constructor "speak" ⟨2⟩).2
          "speak" ⟨2⟩).2
        "speak" .undefined).promise = .rejected (.handlerNotRegistered "speak") ∧
    (broadcastEvent secondDeadHost
        (registerListeningAction (registerListeningAction Broadcaster.constructor "speak" ⟨2⟩).2
          "speak" ⟨2⟩).2
        "speak" .undefined).calls = [] := by
  simp [registerListeningAction, Broadcaster.constructor, broadcastEvent, speak_own,
    mapListeningActions, dispatchListener, unregisterListeningAction, promiseAll, promiseTry,
    secondDeadHost, Host.settling, List.filter]

/-! ## C7 -/

/-- C7: when a live listener f in the listener list L of E fails when called,
`broadcastEvent(E, data)` is rejected, and the calls it made are exactly one
call with `(E, data)` per live entry of L, in list order: every live listener
before and after the failing one is still called (and no responder is). -/
theorem broadcastEvent_failing_listener (host : Host) (b : Broadcaster) (E : String)
    (data : Value) (L : List Handler) (f : Handler)
    (hL : b.actionListeningMap E = some L)
    (hmem : f ∈ L) (hlive : host.isDeadWrapper f = false)
    (hfail : ∀ st, ∃ e, (host.invoke f E data st).1 = .rejected e) :
    (∃ e, (broadcastEvent host b E data).promise = .rejected e) ∧
      (broadcastEvent host b E data).calls
        = (L.filter (fun h => !host.isDeadWrapper h)).map (callOf E data) ∧
      (∀ h ∈ L, host.isDeadWrapper h = false →
        callOf E data h ∈ (broadcastEvent host b E data).calls) := by
  obtain ⟨e0, he0⟩ := mapListeningActions_promises_rejected host E data L b f hmem hlive hfail
  obtain ⟨e1, he1⟩ := promiseAll_rejected_of_mem _ e0 he0
  have hcalls := mapListeningActions_calls host E data L b
  have hlen : L.length ≠ 0 := by
    intro h0
    rw [List.length_eq_zero.mp h0] at hmem
    simp at hmem
  have hbc : (broadcastEvent host b E data).promise = .rejected e1 ∧
      (broadcastEvent host b E data).calls
        = (L.filter (fun h => !host.isDeadWrapper h)).map (callOf E data) := by
    rw [broadcastEvent_own host b E data (not_inherited_of_listening b E L hL)]
    simp [hL, hlen, he1, hcalls]
  refine ⟨⟨e1, hbc.1⟩, hbc.2, ?_⟩
  intro h hh hhlive
  rw [hbc.2]
  exact List.mem_map.mpr ⟨h, List.mem_filter.mpr ⟨hh, by simp [hhlive]⟩, rfl⟩

theorem broadcastEvent_failing_listener_witness :
    (∃ e, (broadcastEvent throwingHost (Broadcaster.only "speak" (some ⟨9⟩) (some [⟨1⟩, ⟨2⟩, ⟨3⟩]))
        "speak" .null).promise = .rejected e) ∧
      (broadcastEvent throwingHost (Broadcaster.only "speak" (some ⟨9⟩) (some [⟨1⟩, ⟨2⟩, ⟨3⟩]))
        "speak" .null).calls
        = ([⟨1⟩, ⟨2⟩, ⟨3⟩].filter (fun h => !throwingHost.isDeadWrapper h)).map
            (callOf "speak" .null) ∧
      (∀ h ∈ [(⟨1⟩ : Handler), ⟨2⟩, ⟨3⟩], throwingHost.isDeadWrapper h = false →
        callOf "speak" .null h ∈
          (broadcastEvent throwingHost
            (Broadcaster.only "speak" (some ⟨9⟩) (some [⟨1⟩, ⟨2⟩, ⟨3⟩])) "speak" .null).calls) :=
  broadcastEvent_failing_listener throwingHost
    (Broadcaster.only "speak" (some ⟨9⟩) (some [⟨1⟩, ⟨2⟩, ⟨3⟩])) "speak" .null
    [⟨1⟩, ⟨2⟩, ⟨3⟩] ⟨2⟩ (only_actionListeningMap_self _ _ _ speak_own) (by simp) rfl
    (fun _ => ⟨.thrown (.string "listener failed"), rfl⟩)

/-! ## C8 -/

/-- C8: when every listener of E is live and succeeds and the responder r of E
fails with error e, `broadcastEvent(E, data)` is rejected with that same e, and
r was called after one call of every listener. -/
theorem broadcastEvent_failing_responder (host : Host) (b : Broadcaster) (E : String)
    (data : Value) (r : Handler) (L : List Handler) (e : Error)
    (hr : b.actionRespondingMap E = some r)
    (hL : (b.actionListeningMap E).getD [] = L)
    (hlive : ∀ l ∈ L, host.isDeadWrapper l = false)
    (hok : ∀ l ∈ L, ∀ st, ∃ v, (host.invoke l E data st).1 = .resolved v)
    (hfail : ∀ st, (host.invoke r E data st).1 = .rejected e) :
    (broadcastEvent host b E data).promise = .rejected e ∧
      (broadcastEvent host b E data).calls = L.map (callOf E data) ++ [callOf E data r] := by
  obtain ⟨st, hcalls, hp⟩ :=
    broadcastEvent_of_listeners_resolved host b E data r L hr hL hlive hok
  rw [hfail st] at hp
  exact ⟨hp, hcalls⟩

theorem broadcastEvent_failing_responder_witness :
    (broadcastEvent throwingHost (Broadcaster.only "speak" (some ⟨9⟩) (some [⟨1⟩, ⟨3⟩]))
        "speak" .null).promise = .rejected (.thrown (.string "responder failed")) ∧
      (broadcastEvent throwingHost (Broadcaster.only "speak" (some ⟨9⟩) (some [⟨1⟩, ⟨3⟩]))
        "speak" .null).calls
        = [(⟨1⟩ : Handler), ⟨3⟩].map (callOf "speak" .null) ++ [callOf "speak" .null ⟨9⟩] :=
  broadcastEvent_failing_responder throwingHost
    (Broadcaster.only "speak" (some ⟨9⟩) (some [⟨1⟩, ⟨3⟩])) "speak" .null ⟨9⟩ [⟨1⟩, ⟨3⟩]
    (.thrown (.string "responder failed"))
    (only_actionRespondingMap_self _ _ _ speak_own)
    (by rw [only_actionListeningMap_self _ _ _ speak_own]; rfl) (fun _ _ => rfl)
    (by
      intro l hl st
      refine ⟨.undefined, ?_⟩
      simp only [List.mem_cons, List.mem_singleton, List.not_mem_nil, or_false] at hl
      rcases hl with h | h <;> subst h <;> rfl)
    (fun _ => rfl)

/-! ## C9 -/

/-- C9: when the listener list L of E contains h at least once,
`unregisterListeningAction(E, h)` succeeds and the new list of E is L without
any entry identical to h: h no longer occurs, every other handler occurs as
often as before, and the remaining entries keep their relative order. -/
theorem unregisterListeningAction_removes_every_occurrence (b : Broadcaster) (E : String)
    (h : Handler) (L : List Handler)
    (hL : b.actionListeningMap E = some L) (hmem : h ∈ L) :
    (unregisterListeningAction b E h).1 = .resolved .undefined ∧
      (unregisterListeningAction b E h).2.actionListeningMap E
        = some (L.filter (fun x => decide (x ≠ h))) ∧
      h ∉ L.filter (fun x => decide (x ≠ h)) ∧
      (∀ x, x ≠ h → (L.filter (fun x => decide (x ≠ h))).count x = L.count x) ∧
      List.Sublist (L.filter (fun x => decide (x ≠ h))) L := by
  rw [unregisterListeningAction_of_mem b E h L hL hmem]
  refine ⟨rfl, ?_, ?_, ?_, List.filter_sublist L⟩
  · simp
  · simp [List.mem_filter]
  · intro x hx
    exact List.count_filter (by simpa using hx)

theorem unregisterListeningAction_removes_every_occurrence_witness :
    (unregisterListeningAction (Broadcaster.only "speak" none (some [⟨1⟩, ⟨2⟩, ⟨1⟩, ⟨3⟩]))
        "speak" ⟨1⟩).1 = .resolved .undefined ∧
      (unregisterListeningAction (Broadcaster.only "speak" none (some [⟨1⟩, ⟨2⟩, ⟨1⟩, ⟨3⟩]))
        "speak" ⟨1⟩).2.actionListeningMap "speak"
        = some ([(⟨1⟩ : Handler), ⟨2⟩, ⟨1⟩, ⟨3⟩].filter (fun x => decide (x ≠ ⟨1⟩))) ∧
      (⟨1⟩ : Handler) ∉ [(⟨1⟩ : Handler), ⟨2⟩, ⟨1⟩, ⟨3⟩].filter (fun x => decide (x ≠ ⟨1⟩)) ∧
      (∀ x : Handler, x ≠ ⟨1⟩ →
        ([(⟨1⟩ : Handler), ⟨2⟩, ⟨1⟩, ⟨3⟩].filter (fun x => decide (x ≠ ⟨1⟩))).count x
          = [(⟨1⟩ : Handler), ⟨2⟩, ⟨1⟩, ⟨3⟩].count x) ∧
      List.Sublist ([(⟨1⟩ : Handler), ⟨2⟩, ⟨1⟩, ⟨3⟩].filter (fun x => decide (x ≠ ⟨1⟩)))
        [(⟨1⟩ : Handler), ⟨2⟩, ⟨1⟩, ⟨3⟩] :=
  unregisterListeningAction_removes_every_occurrence
    (Broadcaster.only "speak" none (some [⟨1⟩, ⟨2⟩, ⟨1⟩, ⟨3⟩])) "speak" ⟨1⟩
    [⟨1⟩, ⟨2⟩, ⟨1⟩, ⟨3⟩] (only_actionListeningMap_self _ _ _ speak_own) (by simp)

/-! ## Unregistration of a listener: the three outcomes -/

/-- Unregistering a handler that does not occur in the list of E is rejected
and leaves the registries as they were. -/
theorem unregisterListeningAction_of_not_mem (b : Broadcaster) (E : String) (h : Handler)
    (L : List Handler) (hL : b.actionListeningMap E = some L) (hnot : h ∉ L) :
    unregisterListeningAction b E h = (.rejected (.handlerNotRegistered E), b) := by
  have hfilter : L.filter (fun x => decide (x ≠ h)) = L := by
    apply List.filter_eq_self.mpr
    intro a ha
    have : a ≠ h := fun hah => hnot (hah ▸ ha)
    simpa using this
  unfold unregisterListeningAction
  rw [dif_neg (not_inherited_of_listening b E L hL)]
  simp only [hL, hfilter, if_true, promiseTry]
  rw [storeListening_eq_self b E _ (some L) hL]

/-- Unregistering from a name that is not inherited and has no list is
rejected with the no-listeners error and leaves the registries as they were. -/
theorem unregisterListeningAction_of_none (b : Broadcaster) (E : String) (h : Handler)
    (hE : isInherited E = false) (hnone : b.actionListeningMap E = none) :
    unregisterListeningAction b E h = (.rejected (.noListeningActions E), b) := by
  simp [unregisterListeningAction, hE, hnone, promiseTry]

/-- Unregistering from an inherited name is rejected with a `TypeError` and
stores nothing. -/
theorem unregisterListeningAction_inherited (b : Broadcaster) (E : String) (h : Handler)
    (hE : isInherited E = true) :
    unregisterListeningAction b E h = (.rejected .typeError, b) := by
  simp [unregisterListeningAction, hE, promiseTry]

/-! ## C10 -/

/-- For a name that is not inherited from `Object.prototype`,
`unregisterListeningAction(E, h)` is rejected exactly when h does not occur in
a listener list of E; the error is the no-listeners error when E has no list,
and the handler-not-registered error when E has a list (possibly empty) without
h; in both cases the registries afterwards are the registries before. -/
theorem unregisterListeningAction_fails_iff (b : Broadcaster) (E : String) (h : Handler)
    (hE : isInherited E = false) :
    ((∃ e, (unregisterListeningAction b E h).1 = .rejected e)
        ↔ ¬ ∃ L, b.actionListeningMap E = some L ∧ h ∈ L) ∧
      (b.actionListeningMap E = none →
        unregisterListeningAction b E h = (.rejected (.noListeningActions E), b)) ∧
      (∀ L, b.actionListeningMap E = some L → h ∉ L →
        unregisterListeningAction b E h = (.rejected (.handlerNotRegistered E), b)) := by
  have hnone := unregisterListeningAction_of_none b E h hE
  have hsome := unregisterListeningAction_of_not_mem b E h
  refine ⟨⟨?_, ?_⟩, hnone, hsome⟩
  · rintro ⟨e, he⟩ ⟨L, hL, hmem⟩
    rw [unregisterListeningAction_of_mem b E h L hL hmem] at he
    exact Promise.noConfusion he
  · intro hno
    cases hL : b.actionListeningMap E with
    | none => exact ⟨_, by rw [hnone hL]⟩
    | some L =>
      have hnot : h ∉ L := fun hmem => hno ⟨L, hL, hmem⟩
      exact ⟨_, by rw [hsome L hL hnot]⟩

/-- C10, the input on which the code departs from it: a new Broadcaster has no
listener list for "constructor", yet `unregisterListeningAction("constructor",
h)` is not rejected with the no-listeners error: the guard of line 75 reads the
function inherited from `Object.prototype`, which is truthy, and line 81 calls
its missing method `filter`, so the rejection is a `TypeError`. -/
theorem unregisterListeningAction_rejects_inherited_name :
    Broadcaster.constructor.actionListeningMap "constructor" = none ∧
      unregisterListeningAction Broadcaster.constructor "constructor" ⟨1⟩
        = (.rejected .typeError, Broadcaster.constructor) ∧
      Error.typeError ≠ Error.noListeningActions "constructor" :=
  ⟨rfl, unregisterListeningAction_inherited Broadcaster.constructor "constructor" ⟨1⟩
    constructor_inherited, fun h => Error.noConfusion h⟩

/-! ## C11 -/

/-- For a name that is not inherited from `Object.prototype`,
`registerListeningAction(E, h)` succeeds (whether or not h is already in the
list) and the new listener list of E is the old list (empty if absent) followed
by h; every other listener list and the responder table are unchanged. -/
theorem registerListeningAction_appends (b : Broadcaster) (E : String) (h : Handler)
    (hE : isInherited E = false) :
    (registerListeningAction b E h).1 = .resolved (.listening E h) ∧
      (registerListeningAction b E h).2.actionListeningMap E
        = some ((b.actionListeningMap E).getD [] ++ [h]) ∧
      (∀ name, name ≠ E →
        (registerListeningAction b E h).2.actionListeningMap name = b.actionListeningMap name) ∧
      (registerListeningAction b E h).2.actionRespondingMap = b.actionRespondingMap := by
  refine ⟨by simp [registerListeningAction, hE, promiseTry],
    by simp [registerListeningAction, hE], ?_, by simp [registerListeningAction, hE]⟩
  intro name hname
  simp [registerListeningAction, hE, Function.update_noteq hname]

/-- C11, the input on which the code departs from it: on a new Broadcaster
`registerListeningAction("toString", h)` does not succeed and stores nothing:
line 95 reads the function inherited from `Object.prototype`, which is truthy,
and calls its missing method `concat`, so the promise is rejected with a
`TypeError`. -/
theorem registerListeningAction_rejects_inherited_name :
    registerListeningAction Broadcaster.constructor "toString" ⟨1⟩
        = (.rejected .typeError, Broadcaster.constructor) ∧
      (registerListeningAction Broadcaster.constructor "toString" ⟨1⟩).2.actionListeningMap
        "toString" = none := by
  simp [registerListeningAction, toString_inherited, promiseTry, Broadcaster.constructor]

/-! ## The calls of a broadcast -/

/-- Whatever the handlers do to the registries, the calls of a broadcast are
one call per live entry of the list read at its start, in list order, followed
by at most the call of the responder read at its start. -/
theorem broadcastEvent_calls_of_start (host : Host) (b : Broadcaster) (E : String)
    (data : Value) :
    ∃ tail, (broadcastEvent host b E data).calls
        = (((b.actionListeningMap E).getD []).filter (fun h => !host.isDeadWrapper h)).map
            (callOf E data) ++ tail ∧
      (tail = [] ∨ ∃ r, b.actionRespondingMap E = some r ∧ tail = [callOf E data r]) := by
  rcases broadcastEvent_after_dispatch host b E data with ⟨hc, _⟩ | ⟨r, hr, hc, _⟩
  · exact ⟨[], by rw [hc, mapListeningActions_calls, List.append_nil], Or.inl rfl⟩
  · exact ⟨[callOf E data r], by rw [hc, mapListeningActions_calls], Or.inr ⟨r, hr, rfl⟩⟩

/-- With no responder for E, the calls of a broadcast are exactly one call
per live entry of the list of E. -/
theorem broadcastEvent_calls_without_responder (host : Host) (b : Broadcaster)
    (E : String) (data : Value) (hnone : b.actionRespondingMap E = none) :
    (broadcastEvent host b E data).calls
      = (((b.actionListeningMap E).getD []).filter (fun h => !host.isDeadWrapper h)).map
          (callOf E data) := by
  obtain ⟨tail, hcalls, htail⟩ := broadcastEvent_calls_of_start host b E data
  rcases htail with htail | ⟨r, hr, _⟩
  · rw [hcalls, htail, List.append_nil]
  · rw [hnone] at hr
    exact Option.noConfusion hr

/-! ## C12 -/

/-- C12, refuted as stated: it is not the case that in every registry state
`registerListeningAction(E, h)` followed by `unregisterListeningAction(E, h)`
succeeds, leaves the list of E without h, and is followed by a broadcast of E
that does not call h.  When handler 1 is also the responder of "speak", the
broadcast that follows calls handler 1. -/
theorem broadcast_after_unregister_calls_responder :
    ¬ (∀ (host : Host) (b : Broadcaster) (E : String) (h : Handler) (data : Value),
        (unregisterListeningAction (registerListeningAction b E h).2 E h).1
          = .resolved .undefined ∧
        (unregisterListeningAction (registerListeningAction b E h).2 E h).2.actionListeningMap E
          = some (((b.actionListeningMap E).getD []).filter (fun x => decide (x ≠ h))) ∧
        (∀ c ∈ (broadcastEvent host
            (unregisterListeningAction (registerListeningAction b E h).2 E h).2 E data).calls,
          c.handler ≠ h)) := by
  intro hall
  have h1 := (hall answeringHost (Broadcaster.only "speak" (some ⟨1⟩) none) "speak" ⟨1⟩
    .null).2.2 (callOf "speak" .null ⟨1⟩)
  have hcalls : (broadcastEvent answeringHost
      (unregisterListeningAction
        (registerListeningAction (Broadcaster.only "speak" (some ⟨1⟩) none) "speak" ⟨1⟩).2
        "speak" ⟨1⟩).2 "speak" .null).calls = [callOf "speak" .null ⟨1⟩] := by
    simp [broadcastEvent, speak_own, registerListeningAction, unregisterListeningAction,
      only_actionRespondingMap_self, only_actionListeningMap_self, mapListeningActions,
      promiseAll, promiseTry, answeringHost, Host.settling, List.filter, callOf]
  rw [hcalls] at h1
  exact h1 (by simp) rfl

/-- C12, as amended: for every registry state and every name E that is not
inherited from `Object.prototype`, with L the listener list of E (empty if
absent), `registerListeningAction(E, h)` followed by
`unregisterListeningAction(E, h)` succeeds and leaves the list of E equal to L
without any occurrence of h (the empty list when E had no listeners); a
broadcast of E that follows does not dispatch to h as a listener: a call of h
it makes can only be the call of the responder of E, when h is that responder
too. -/
theorem register_then_unregister_listening (host : Host) (b : Broadcaster) (E : String)
    (h : Handler) (data : Value) (hE : isInherited E = false) :
    (unregisterListeningAction (registerListeningAction b E h).2 E h).1 = .resolved .undefined ∧
      (unregisterListeningAction (registerListeningAction b E h).2 E h).2.actionListeningMap E
        = some (((b.actionListeningMap E).getD []).filter (fun x => decide (x ≠ h))) ∧
      ((b.actionListeningMap E).getD [] = [] →
        (unregisterListeningAction (registerListeningAction b E h).2 E h).2.actionListeningMap E
          = some []) ∧
      (∀ c ∈ (broadcastEvent host
          (unregisterListeningAction (registerListeningAction b E h).2 E h).2 E data).calls,
        c.handler = h → b.actionRespondingMap E = some h ∧ c = callOf E data h) := by
  have hreg : (registerListeningAction b E h).2.actionListeningMap E
      = some ((b.actionListeningMap E).getD [] ++ [h]) := by
    simp [registerListeningAction, hE]
  have hregr : (registerListeningAction b E h).2.actionRespondingMap = b.actionRespondingMap := by
    simp [registerListeningAction, hE]
  have hun := unregisterListeningAction_of_mem (registerListeningAction b E h).2 E h _ hreg
    (by simp)
  have hfilter : ((b.actionListeningMap E).getD [] ++ [h]).filter (fun x => decide (x ≠ h))
      = ((b.actionListeningMap E).getD []).filter (fun x => decide (x ≠ h)) := by
    simp [List.filter_append, List.filter]
  have hlist : (unregisterListeningAction (registerListeningAction b E h).2 E
      h).2.actionListeningMap E
      = some (((b.actionListeningMap E).getD []).filter (fun x => decide (x ≠ h))) := by
    rw [hun, ← hfilter]
    simp
  have hresp : (unregisterListeningAction (registerListeningAction b E h).2 E
      h).2.actionRespondingMap = b.actionRespondingMap := by
    rw [hun]
    simp [hregr]
  refine ⟨by rw [hun], hlist, ?_, ?_⟩
  · intro hnil
    rw [hlist, hnil]
    rfl
  · intro c hc hch
    obtain ⟨tail, hcalls, htail⟩ := broadcastEvent_calls_of_start host
      (unregisterListeningAction (registerListeningAction b E h).2 E h).2 E data
    rw [hlist] at hcalls
    rw [hresp] at htail
    rw [hcalls] at hc
    rcases List.mem_append.mp hc with hc | hc
    · exfalso
      obtain ⟨x, hx, rfl⟩ := List.mem_map.mp hc
      have hx1 := (List.mem_filter.mp (List.mem_filter.mp hx).1).2
      simp [callOf] at hch
      simp [hch] at hx1
    · rcases htail with htail | ⟨r, hr, htail⟩
      · rw [htail] at hc
        simp at hc
      · rw [htail] at hc
        have hcr : c = callOf E data r := by simpa using hc
        have hrh : r = h := by rw [← hch, hcr]; rfl
        rw [hrh] at hr hcr
        exact ⟨hr, hcr⟩

theorem register_then_unregister_listening_witness :
    (unregisterListeningAction
        (registerListeningAction (Broadcaster.only "speak" (some ⟨9⟩) (some [⟨1⟩, ⟨2⟩, ⟨1⟩]))
          "speak" ⟨1⟩).2 "speak" ⟨1⟩).1 = .resolved .undefined ∧
      (unregisterListeningAction
        (registerListeningAction (Broadcaster.only "speak" (some ⟨9⟩) (some [⟨1⟩, ⟨2⟩, ⟨1⟩]))
          "speak" ⟨1⟩).2 "speak" ⟨1⟩).2.actionListeningMap "speak"
        = some ((((Broadcaster.only "speak" (some ⟨9⟩)
            (some [⟨1⟩, ⟨2⟩, ⟨1⟩])).actionListeningMap "speak").getD []).filter
              (fun x => decide (x ≠ ⟨1⟩))) ∧
      ((((Broadcaster.only "speak" (some ⟨9⟩)
            (some [⟨1⟩, ⟨2⟩, ⟨1⟩])).actionListeningMap "speak").getD []) = [] →
        (unregisterListeningAction
          (registerListeningAction (Broadcaster.only "speak" (some ⟨9⟩) (some [⟨1⟩, ⟨2⟩, ⟨1⟩]))
            "speak" ⟨1⟩).2 "speak" ⟨1⟩).2.actionListeningMap "speak" = some []) ∧
      (∀ c ∈ (broadcastEvent answeringHost
          (unregisterListeningAction
            (registerListeningAction (Broadcaster.only "speak" (some ⟨9⟩) (some [⟨1⟩, ⟨2⟩, ⟨1⟩]))
              "speak" ⟨1⟩).2 "speak" ⟨1⟩).2 "speak" .null).calls,
        c.handler = ⟨1⟩ →
          (Broadcaster.only "speak" (some ⟨9⟩) (some [⟨1⟩, ⟨2⟩, ⟨1⟩])).actionRespondingMap "speak"
            = some ⟨1⟩ ∧ c = callOf "speak" .null ⟨1⟩) :=
  register_then_unregister_listening answeringHost
    (Broadcaster.only "speak" (some ⟨9⟩) (some [⟨1⟩, ⟨2⟩, ⟨1⟩])) "speak" ⟨1⟩ .null speak_own

/-! ## C13 -/

/-- For a name that is not inherited from `Object.prototype`,
`unregisterRespondingAction(E, h)` is rejected exactly when no responder is
registered for E, and then leaves the registries unchanged; when a responder r
is registered for E it succeeds for every argument h, also an h other than r,
and removes r, leaving the other responders and every listener list unchanged. -/
theorem unregisterRespondingAction_fails_iff (b : Broadcaster) (E : String) (h : Handler)
    (hE : isInherited E = false) :
    ((∃ e, (unregisterRespondingAction b E h).1 = .rejected e)
        ↔ b.actionRespondingMap E = none) ∧
      (b.actionRespondingMap E = none →
        unregisterRespondingAction b E h = (.rejected (.noRespondingHandler E), b)) ∧
      (∀ r, b.actionRespondingMap E = some r →
        (unregisterRespondingAction b E h).1 = .resolved .undefined ∧
        (unregisterRespondingAction b E h).2.actionRespondingMap E = none ∧
        (∀ name, name ≠ E →
          (unregisterRespondingAction b E h).2.actionRespondingMap name
            = b.actionRespondingMap name) ∧
        (unregisterRespondingAction b E h).2.actionListeningMap = b.actionListeningMap) := by
  cases hr : b.actionRespondingMap E with
  | none =>
    refine ⟨⟨fun _ => rfl, fun _ => ⟨.noRespondingHandler E, ?_⟩⟩, fun _ => ?_, ?_⟩
    · simp [unregisterRespondingAction, hE, hr, promiseTry]
    · simp [unregisterRespondingAction, hE, hr, promiseTry]
    · intro r hsome
      exact Option.noConfusion hsome
  | some r0 =>
    refine ⟨⟨?_, fun hnone => Option.noConfusion hnone⟩, fun hnone => Option.noConfusion hnone, ?_⟩
    · rintro ⟨e, he⟩
      simp [unregisterRespondingAction, hE, hr, promiseTry] at he
    · intro r _
      refine ⟨by simp [unregisterRespondingAction, hE, hr, promiseTry],
        by simp [unregisterRespondingAction, hE, hr], ?_,
        by simp [unregisterRespondingAction, hE, hr]⟩
      intro name hname
      simp [unregisterRespondingAction, hE, hr, Function.update_noteq hname]

/-- C13, the input on which the code departs from it: a new Broadcaster has no
responder for "toString", yet `unregisterRespondingAction("toString", h)` is
not rejected: the guard of line 44 reads the function inherited from
`Object.prototype`, which is truthy, the `delete` of line 48 removes nothing
and the promise resolves. -/
theorem unregisterRespondingAction_resolves_on_inherited_name :
    Broadcaster.constructor.actionRespondingMap "toString" = none ∧
      unregisterRespondingAction Broadcaster.constructor "toString" ⟨1⟩
        = (.resolved .undefined, Broadcaster.constructor) := by
  simp [unregisterRespondingAction, toString_inherited, promiseTry, Broadcaster.constructor]

/-! ## C14 -/

/-- For a name that is not inherited from `Object.prototype` and has no
responder, `registerRespondingAction(E, h)` succeeds, afterwards the responder
of E is h, and the responders of all other event names and every listener list
are unchanged. -/
theorem registerRespondingAction_stores (b : Broadcaster) (E : String) (h : Handler)
    (hE : isInherited E = false) (hnone : b.actionRespondingMap E = none) :
    (registerRespondingAction b E h).1 = .resolved (.responding E h) ∧
      (registerRespondingAction b E h).2.actionRespondingMap E = some h ∧
      (∀ name, name ≠ E →
        (registerRespondingAction b E h).2.actionRespondingMap name
          = b.actionRespondingMap name) ∧
      (registerRespondingAction b E h).2.actionListeningMap = b.actionListeningMap := by
  refine ⟨by simp [registerRespondingAction, hE, hnone, promiseTry],
    by simp [registerRespondingAction, hE, hnone], ?_,
    by simp [registerRespondingAction, hE, hnone]⟩
  intro name hname
  simp [registerRespondingAction, hE, hnone, Function.update_noteq hname]

/-- C14, the input on which the code departs from it: a new Broadcaster has no
responder for "constructor", yet `registerRespondingAction("constructor", h)`
is rejected with the only-one-responder error and stores nothing: the guard of
line 56 reads the function inherited from `Object.prototype`, which is truthy. -/
theorem registerRespondingAction_rejects_inherited_name :
    Broadcaster.constructor.actionRespondingMap "constructor" = none ∧
      registerRespondingAction Broadcaster.constructor "constructor" ⟨1⟩
        = (.rejected (.onlyOneRespondingHandler "constructor"), Broadcaster.constructor) := by
  simp [registerRespondingAction, constructor_inherited, promiseTry, Broadcaster.constructor]

/-! ## Auxiliary lemmas on kill switches and failing listeners -/

/-- Registering a listener under a name that is not inherited. -/
theorem registerListeningAction_own (b : Broadcaster) (E : String) (h : Handler)
    (hE : ¬ isInherited E = true) :
    registerListeningAction b E h
      = (.resolved (.listening E h),
          b.storeListening E hE (some ((b.actionListeningMap E).getD [] ++ [h]))) := by
  unfold registerListeningAction
  rw [dif_neg hE]
  rfl

/-- Registering a responder under a name that is not inherited and has none. -/
theorem registerRespondingAction_own (b : Broadcaster) (E : String) (h : Handler)
    (hE : ¬ isInherited E = true) (hnone : b.actionRespondingMap E = none) :
    registerRespondingAction b E h
      = (.resolved (.responding E h), b.storeResponding E hE (some h)) := by
  unfold registerRespondingAction
  rw [dif_neg hE]
  simp [hnone, promiseTry]

/-- The kill switch of a listening registration removes nothing but entries
identical to its own handler: the responder table and the lists of the other
names are unchanged, and every other handler keeps its number of occurrences
in the list of E. -/
theorem listening_killSwitch_removes_only_its_handler (b : Broadcaster) (E : String)
    (h : Handler) :
    ((KillSwitch.listening E h).call b).2.actionRespondingMap = b.actionRespondingMap ∧
      (∀ name, name ≠ E →
        ((KillSwitch.listening E h).call b).2.actionListeningMap name
          = b.actionListeningMap name) ∧
      (∀ x, x ≠ h →
        ((((KillSwitch.listening E h).call b).2.actionListeningMap E).getD []).count x
          = ((b.actionListeningMap E).getD []).count x) := by
  cases hL : b.actionListeningMap E with
  | none =>
    by_cases hE : isInherited E = true
    · simp [KillSwitch.call, unregisterListeningAction, hE, hL]
    · simp [KillSwitch.call, unregisterListeningAction, hE, hL]
  | some L =>
    by_cases hmem : h ∈ L
    · rw [KillSwitch.call, unregisterListeningAction_of_mem b E h L hL hmem]
      refine ⟨rfl, fun name hname => by simp [Function.update_noteq hname], ?_⟩
      intro x hx
      simp only [storeListening_actionListeningMap, Function.update_same, Option.getD_some]
      exact List.count_filter (by simpa using hx)
    · rw [KillSwitch.call, unregisterListeningAction_of_not_mem b E h L hL hmem]
      simp [hL]

/-- A live listener of E that fails makes the broadcast reject after one call
per live entry of the list, without the call of the responder. -/
theorem broadcastEvent_of_listener_rejected (host : Host) (b : Broadcaster) (E : String)
    (data : Value) (L : List Handler) (f : Handler)
    (hL : b.actionListeningMap E = some L)
    (hmem : f ∈ L) (hlive : host.isDeadWrapper f = false)
    (hfail : ∀ st, ∃ e, (host.invoke f E data st).1 = .rejected e) :
    (∃ e, (broadcastEvent host b E data).promise = .rejected e) ∧
      (broadcastEvent host b E data).calls
        = (L.filter (fun h => !host.isDeadWrapper h)).map (callOf E data) := by
  obtain ⟨e0, he0⟩ := mapListeningActions_promises_rejected host E data L b f hmem hlive hfail
  obtain ⟨e1, he1⟩ := promiseAll_rejected_of_mem _ e0 he0
  have hcalls := mapListeningActions_calls host E data L b
  have hlen : L.length ≠ 0 := by
    intro h0
    rw [List.length_eq_zero.mp h0] at hmem
    simp at hmem
  have hbc : (broadcastEvent host b E data).promise = .rejected e1 ∧
      (broadcastEvent host b E data).calls
        = (L.filter (fun h => !host.isDeadWrapper h)).map (callOf E data) := by
    rw [broadcastEvent_own host b E data (not_inherited_of_listening b E L hL)]
    simp [hL, hlen, he1, hcalls]
  exact ⟨⟨e1, hbc.1⟩, hbc.2⟩

/-! ## C15 -/

/-- C15, the input on which the code departs from it: handler 1 is registered
as the responder of "speak" and its kill switch is kept; the responder is then
unregistered and handler 2 is registered as the responder of "speak".  Calling
the kill switch made for handler 1 now succeeds and removes handler 2:
`unregisterRespondingAction` never looks at the handler it is given. -/
theorem responding_killSwitch_removes_other_handler :
    (registerRespondingAction Broadcaster.constructor "speak" ⟨1⟩).1
        = .resolved (.responding "speak" ⟨1⟩) ∧
      (registerRespondingAction
        (unregisterRespondingAction
          (registerRespondingAction Broadcaster.constructor "speak" ⟨1⟩).2 "speak" ⟨1⟩).2
        "speak" ⟨2⟩).2.actionRespondingMap "speak" = some ⟨2⟩ ∧
      ((KillSwitch.responding "speak" ⟨1⟩).call
        (registerRespondingAction
          (unregisterRespondingAction
            (registerRespondingAction Broadcaster.constructor "speak" ⟨1⟩).2 "speak" ⟨1⟩).2
          "speak" ⟨2⟩).2).1 = .resolved .undefined ∧
      ((KillSwitch.responding "speak" ⟨1⟩).call
        (registerRespondingAction
          (unregisterRespondingAction
            (registerRespondingAction Broadcaster.constructor "speak" ⟨1⟩).2 "speak" ⟨1⟩).2
          "speak" ⟨2⟩).2).2.actionRespondingMap "speak" = none := by
  simp [registerRespondingAction, unregisterRespondingAction, KillSwitch.call, speak_own,
    Broadcaster.constructor, promiseTry]

/-! ## C16 -/

/-- C16: for every successful registration, responding or listening, with kill
switch k, calling k on the registries the registration left succeeds, and
calling k a second time right after is rejected and leaves both registries
unchanged. -/
theorem killSwitch_second_call_fails (b : Broadcaster) (E : String) (h : Handler)
    (k : KillSwitch) (b1 : Broadcaster)
    (hreg : registerRespondingAction b E h = (.resolved k, b1) ∨
      registerListeningAction b E h = (.resolved k, b1)) :
    (k.call b1).1 = .resolved .undefined ∧
      ∃ e, k.call (k.call b1).2 = (.rejected e, (k.call b1).2) := by
  by_cases hE : isInherited E = true
  · rcases hreg with hreg | hreg
    · simp [registerRespondingAction, hE, promiseTry] at hreg
    · simp [registerListeningAction, hE, promiseTry] at hreg
  rcases hreg with hreg | hreg
  · by_cases hsome : (b.actionRespondingMap E).isSome = true
    · simp [registerRespondingAction, hE, hsome, promiseTry] at hreg
    · have hnone : b.actionRespondingMap E = none := by
        cases hr : b.actionRespondingMap E with
        | none => rfl
        | some r => simp [hr] at hsome
      rw [registerRespondingAction_own b E h hE hnone] at hreg
      obtain ⟨hk, hb1⟩ := Prod.mk.inj hreg
      have hk1 := Promise.resolved.inj hk
      subst hk1
      subst hb1
      refine ⟨by simp [KillSwitch.call, unregisterRespondingAction, hE, promiseTry],
        .noRespondingHandler E, ?_⟩
      simp [KillSwitch.call, unregisterRespondingAction, hE, promiseTry]
  · rw [registerListeningAction_own b E h hE] at hreg
    obtain ⟨hk, hb1⟩ := Prod.mk.inj hreg
    have hk1 := Promise.resolved.inj hk
    subst hk1
    have hlist : b1.actionListeningMap E = some ((b.actionListeningMap E).getD [] ++ [h]) := by
      rw [← hb1]; simp
    have hfirst := unregisterListeningAction_of_mem b1 E h _ hlist (by simp)
    simp only [KillSwitch.call]
    rw [hfirst]
    refine ⟨rfl, .handlerNotRegistered E, ?_⟩
    exact unregisterListeningAction_of_not_mem _ E h
      (((b.actionListeningMap E).getD [] ++ [h]).filter (fun x => decide (x ≠ h)))
      (by simp) (by simp [List.mem_filter])

theorem killSwitch_second_call_fails_witness :
    (((KillSwitch.listening "speak" ⟨1⟩).call
        (registerListeningAction (Broadcaster.only "speak" none (some [⟨1⟩, ⟨2⟩]))
          "speak" ⟨1⟩).2).1 = .resolved .undefined ∧
      ∃ e, (KillSwitch.listening "speak" ⟨1⟩).call
          ((KillSwitch.listening "speak" ⟨1⟩).call
            (registerListeningAction (Broadcaster.only "speak" none (some [⟨1⟩, ⟨2⟩]))
              "speak" ⟨1⟩).2).2
        = (.rejected e,
            ((KillSwitch.listening "speak" ⟨1⟩).call
              (registerListeningAction (Broadcaster.only "speak" none (some [⟨1⟩, ⟨2⟩]))
                "speak" ⟨1⟩).2).2)) ∧
    (((KillSwitch.responding "speak" ⟨9⟩).call
        (registerRespondingAction Broadcaster.constructor "speak" ⟨9⟩).2).1
        = .resolved .undefined ∧
      ∃ e, (KillSwitch.responding "speak" ⟨9⟩).call
          ((KillSwitch.responding "speak" ⟨9⟩).call
            (registerRespondingAction Broadcaster.constructor "speak" ⟨9⟩).2).2
        = (.rejected e,
            ((KillSwitch.responding "speak" ⟨9⟩).call
              (registerRespondingAction Broadcaster.constructor "speak" ⟨9⟩).2).2)) :=
  ⟨killSwitch_second_call_fails (Broadcaster.only "speak" none (some [⟨1⟩, ⟨2⟩])) "speak" ⟨1⟩
      (.listening "speak" ⟨1⟩)
      (registerListeningAction (Broadcaster.only "speak" none (some [⟨1⟩, ⟨2⟩])) "speak" ⟨1⟩).2
      (Or.inr rfl),
    killSwitch_second_call_fails Broadcaster.constructor "speak" ⟨9⟩
      (.responding "speak" ⟨9⟩)
      (registerRespondingAction Broadcaster.constructor "speak" ⟨9⟩).2
      (Or.inl rfl)⟩

/-! ## The example state `speakingBroadcaster` -/

theorem speakingBroadcaster_listeners_before :
    speakingBroadcaster.actionListeningMap "before-speaking" = some [⟨1⟩, ⟨2⟩, ⟨3⟩] := by
  simp [speakingBroadcaster, registerListeningAction, registerRespondingAction,
    before_speaking_own, after_speaking_own, Broadcaster.constructor]

theorem speakingBroadcaster_listeners_after :
    speakingBroadcaster.actionListeningMap "after-speaking" = some [⟨7⟩] := by
  simp [speakingBroadcaster, registerListeningAction, registerRespondingAction,
    before_speaking_own, after_speaking_own, Broadcaster.constructor]

theorem speakingBroadcaster_responder_before :
    speakingBroadcaster.actionRespondingMap "before-speaking" = none := by
  simp [speakingBroadcaster, registerListeningAction, registerRespondingAction,
    before_speaking_own, after_speaking_own, Broadcaster.constructor]

theorem speakingBroadcaster_responder_after :
    speakingBroadcaster.actionRespondingMap "after-speaking" = some ⟨8⟩ := by
  simp [speakingBroadcaster, registerListeningAction, registerRespondingAction,
    before_speaking_own, after_speaking_own, Broadcaster.constructor]

/-! ## C17 -/

/-- C17, refuted as stated: it is not the case that for all distinct names E1
and E2 a broadcast of E1 calls each listener registered under E1, calls no
handler registered only under E2 and, with no responder for E1, resolves to
`undefined`.  On `secondDeadHost` the listener 2 of "before-speaking" is a dead
wrapper and is not called. -/
theorem broadcastEvent_does_not_call_every_listener :
    ¬ (∀ (host : Host) (b : Broadcaster) (E1 E2 : String) (data : Value), E1 ≠ E2 →
        (∀ l ∈ (b.actionListeningMap E1).getD [],
          callOf E1 data l ∈ (broadcastEvent host b E1 data).calls) ∧
        (∀ g, (g ∈ (b.actionListeningMap E2).getD [] ∨ b.actionRespondingMap E2 = some g) →
          g ∉ (b.actionListeningMap E1).getD [] → b.actionRespondingMap E1 ≠ some g →
          ∀ c ∈ (broadcastEvent host b E1 data).calls, c.handler ≠ g) ∧
        (b.actionRespondingMap E1 = none →
          (broadcastEvent host b E1 data).promise = .resolved .undefined)) := by
  intro h
  have h1 := (h secondDeadHost speakingBroadcaster "before-speaking" "after-speaking" .null
    (by decide)).1 ⟨2⟩ (by simp [speakingBroadcaster_listeners_before])
  rw [broadcastEvent_calls_without_responder secondDeadHost speakingBroadcaster
    "before-speaking" .null speakingBroadcaster_responder_before,
    speakingBroadcaster_listeners_before] at h1
  revert h1
  simp [secondDeadHost, Host.settling, callOf, List.filter]

/-- C17, as amended: for all distinct names E1 and E2, `broadcastEvent(E1,
data)` calls each live listener registered under E1 with `(E1, data)` (a dead
one is unregistered instead), makes no call with another name or other data,
and calls no handler registered only under E2; and when E1 is not a name
inherited from `Object.prototype` and has no responder, every live listener of
E1 succeeds without changing the registries and no dead listener of E1 is
registered twice, it resolves to `undefined`. -/
theorem broadcastEvent_selects_by_name (host : Host) (b : Broadcaster) (E1 E2 : String)
    (data : Value) (hne : E1 ≠ E2) :
    (∀ l ∈ (b.actionListeningMap E1).getD [], host.isDeadWrapper l = false →
        callOf E1 data l ∈ (broadcastEvent host b E1 data).calls) ∧
      (∀ c ∈ (broadcastEvent host b E1 data).calls,
        c.actionName = E1 ∧ c.actionName ≠ E2 ∧ c.actionData = data) ∧
      (∀ g, (g ∈ (b.actionListeningMap E2).getD [] ∨ b.actionRespondingMap E2 = some g) →
        g ∉ (b.actionListeningMap E1).getD [] → b.actionRespondingMap E1 ≠ some g →
        ∀ c ∈ (broadcastEvent host b E1 data).calls, c.handler ≠ g) ∧
      (isInherited E1 = false → b.actionRespondingMap E1 = none →
        (((b.actionListeningMap E1).getD []).filter host.isDeadWrapper).Nodup →
        (∀ l ∈ (b.actionListeningMap E1).getD [], host.isDeadWrapper l = false →
          ∀ st, ∃ v, host.invoke l E1 data st = (.resolved v, st)) →
        (broadcastEvent host b E1 data).promise = .resolved .undefined) := by
  obtain ⟨tail, hcalls, htail⟩ := broadcastEvent_calls_of_start host b E1 data
  have hmemcalls : ∀ c ∈ (broadcastEvent host b E1 data).calls,
      (∃ l ∈ (b.actionListeningMap E1).getD [], c = callOf E1 data l) ∨
      (∃ r, b.actionRespondingMap E1 = some r ∧ c = callOf E1 data r) := by
    intro c hc
    rw [hcalls] at hc
    rcases List.mem_append.mp hc with hc | hc
    · obtain ⟨l, hl, rfl⟩ := List.mem_map.mp hc
      exact Or.inl ⟨l, (List.mem_filter.mp hl).1, rfl⟩
    · rcases htail with htail | ⟨r, hr, htail⟩
      · rw [htail] at hc; simp at hc
      · rw [htail] at hc
        exact Or.inr ⟨r, hr, by simpa using hc⟩
  refine ⟨?_, ?_, ?_, ?_⟩
  · intro l hl hlive
    rw [hcalls]
    exact List.mem_append_left _
      (List.mem_map.mpr ⟨l, List.mem_filter.mpr ⟨hl, by simp [hlive]⟩, rfl⟩)
  · intro c hc
    rcases hmemcalls c hc with ⟨l, _, rfl⟩ | ⟨r, _, rfl⟩ <;> exact ⟨rfl, hne, rfl⟩
  · intro g _ hnot hnotr c hc
    rcases hmemcalls c hc with ⟨l, hl, rfl⟩ | ⟨r, hr, rfl⟩
    · intro hg
      exact hnot (by simpa [callOf, ← hg] using hl)
    · intro hg
      exact hnotr (by simpa [callOf, ← hg] using hr)
  · intro hE hnone hnodup hok
    cases hL : b.actionListeningMap E1 with
    | none => simp [broadcastEvent, hE, hnone, hL]
    | some L =>
      rw [hL] at hnodup hok
      exact broadcastEvent_resolves_of_distinct_dead host b E1 data L hL hnodup hok
        (fun r hr => by rw [hnone] at hr; exact Option.noConfusion hr)

theorem broadcastEvent_selects_by_name_witness :
    callOf "before-speaking" (.number 1) ⟨1⟩ ∈
        (broadcastEvent secondDeadHost speakingBroadcaster "before-speaking" (.number 1)).calls ∧
      callOf "before-speaking" (.number 1) ⟨3⟩ ∈
        (broadcastEvent secondDeadHost speakingBroadcaster "before-speaking" (.number 1)).calls ∧
      (∀ c ∈ (broadcastEvent secondDeadHost speakingBroadcaster "before-speaking"
          (.number 1)).calls,
        c.actionName = "before-speaking" ∧ c.actionData = .number 1 ∧
          c.handler ≠ ⟨7⟩ ∧ c.handler ≠ ⟨8⟩) ∧
      (broadcastEvent secondDeadHost speakingBroadcaster "before-speaking" (.number 1)).promise
        = .resolved .undefined := by
  have hsel := broadcastEvent_selects_by_name secondDeadHost speakingBroadcaster
    "before-speaking" "after-speaking" (.number 1) (by decide)
  rw [speakingBroadcaster_listeners_before, speakingBroadcaster_listeners_after,
    speakingBroadcaster_responder_before, speakingBroadcaster_responder_after] at hsel
  refine ⟨hsel.1 ⟨1⟩ (by simp) rfl, hsel.1 ⟨3⟩ (by simp) rfl, ?_, ?_⟩
  · intro c hc
    exact ⟨(hsel.2.1 c hc).1, (hsel.2.1 c hc).2.2,
      hsel.2.2.1 ⟨7⟩ (Or.inl (by simp)) (by simp) (by simp) c hc,
      hsel.2.2.1 ⟨8⟩ (Or.inr rfl) (by simp) (by simp) c hc⟩
  · exact hsel.2.2.2 before_speaking_own rfl (by decide)
      (fun l _ _ st => ⟨.undefined, rfl⟩)

/-! ## C18 -/

/-- C18: whatever the handlers called during `broadcastEvent(E, data)` do to
the registries (register or unregister listeners of E, change the responder),
the broadcast dispatches to the listener list and the responder read at its
start: its calls are one call per live entry of the starting list, in list
order (the whole starting list when no entry is a dead wrapper), followed by at
most the call of the starting responder.  A broadcast that follows dispatches
in the same way to the registries the first one left, so the change shows only
there. -/
theorem broadcastEvent_dispatches_to_starting_registrations (host : Host) (b : Broadcaster)
    (E : String) (data : Value) :
    (∃ tail, (broadcastEvent host b E data).calls
        = (((b.actionListeningMap E).getD []).filter (fun h => !host.isDeadWrapper h)).map
            (callOf E data) ++ tail ∧
      (tail = [] ∨ ∃ r, b.actionRespondingMap E = some r ∧ tail = [callOf E data r])) ∧
    ((∀ l ∈ (b.actionListeningMap E).getD [], host.isDeadWrapper l = false) →
      ∃ tail, (broadcastEvent host b E data).calls
        = ((b.actionListeningMap E).getD []).map (callOf E data) ++ tail ∧
      (tail = [] ∨ ∃ r, b.actionRespondingMap E = some r ∧ tail = [callOf E data r])) ∧
    (∃ tail, (broadcastEvent host (broadcastEvent host b E data).broadcaster E data).calls
        = ((((broadcastEvent host b E data).broadcaster.actionListeningMap E).getD []).filter
            (fun h => !host.isDeadWrapper h)).map (callOf E data) ++ tail ∧
      (tail = [] ∨ ∃ r, (broadcastEvent host b E data).broadcaster.actionRespondingMap E = some r ∧
        tail = [callOf E data r])) := by
  refine ⟨broadcastEvent_calls_of_start host b E data, ?_,
    broadcastEvent_calls_of_start host _ E data⟩
  intro hlive
  have hfilter : ((b.actionListeningMap E).getD []).filter (fun h => !host.isDeadWrapper h)
      = (b.actionListeningMap E).getD [] := by
    apply List.filter_eq_self.mpr
    intro l hl
    simp [hlive l hl]
  have h := broadcastEvent_calls_of_start host b E data
  rw [hfilter] at h
  exact h

theorem broadcastEvent_dispatches_to_starting_registrations_witness :
    ((broadcastEvent reenteringHost (Broadcaster.only "speak" none (some [⟨1⟩, ⟨2⟩, ⟨3⟩]))
        "speak" .null).calls
        = [callOf "speak" .null ⟨1⟩, callOf "speak" .null ⟨2⟩, callOf "speak" .null ⟨3⟩] ∧
      (broadcastEvent reenteringHost (Broadcaster.only "speak" none (some [⟨1⟩, ⟨2⟩, ⟨3⟩]))
        "speak" .null).broadcaster.actionListeningMap "speak" = some [⟨1⟩, ⟨3⟩, ⟨5⟩] ∧
      (broadcastEvent reenteringHost
        (broadcastEvent reenteringHost (Broadcaster.only "speak" none (some [⟨1⟩, ⟨2⟩, ⟨3⟩]))
          "speak" .null).broadcaster "speak" .null).calls
        = [callOf "speak" .null ⟨1⟩, callOf "speak" .null ⟨3⟩, callOf "speak" .null ⟨5⟩]) ∧
    (∃ tail, (broadcastEvent reenteringHost
          (Broadcaster.only "speak" none (some [⟨1⟩, ⟨2⟩, ⟨3⟩])) "speak" .null).calls
        = (((Broadcaster.only "speak" none (some [⟨1⟩, ⟨2⟩, ⟨3⟩])).actionListeningMap
            "speak").getD []).map (callOf "speak" .null) ++ tail ∧
      (tail = [] ∨ ∃ r, (Broadcaster.only "speak" none
          (some [⟨1⟩, ⟨2⟩, ⟨3⟩])).actionRespondingMap "speak" = some r ∧
        tail = [callOf "speak" .null r])) :=
  ⟨by
      simp [broadcastEvent, speak_own, only_actionRespondingMap_self,
        only_actionListeningMap_self, mapListeningActions, dispatchListener,
        reenteringHost, registerListeningAction, unregisterListeningAction, promiseAll,
        promiseTry, List.filter, callOf],
    (broadcastEvent_dispatches_to_starting_registrations reenteringHost
      (Broadcaster.only "speak" none (some [⟨1⟩, ⟨2⟩, ⟨3⟩])) "speak" .null).2.1
      (fun _ _ => rfl)⟩

/-! ## C19 -/

/-- One call on the listening registry changes the number of occurrences of h
in the list of a name E that is not inherited as its history entry says: a
successful removal of h from E leaves none, a call that registers h for E adds
one, anything else keeps it. -/
theorem perform_count (op : ListeningOp) (b : Broadcaster) (E : String) (h : Handler)
    (hE : isInherited E = false) :
    (((op.perform b).2.actionListeningMap E).getD []).count h
      = (if isRemoval E h (op, (op.perform b).1) = true then 0
          else ((b.actionListeningMap E).getD []).count h)
        + (if isRegistration E h (op, (op.perform b).1) = true then 1 else 0) := by
  have hun : ∀ name g,
      ((((unregisterListeningAction b name g).2).actionListeningMap E).getD []).count h
        = (if (decide (name = E) && decide (g = h)
              && (unregisterListeningAction b name g).1.isResolved) = true then 0
            else ((b.actionListeningMap E).getD []).count h) := by
    intro name g
    cases hL : b.actionListeningMap name with
    | none =>
      by_cases hname : isInherited name = true
      · simp [unregisterListeningAction, hname, promiseTry, Promise.isResolved]
      · simp [unregisterListeningAction, hname, hL, promiseTry, Promise.isResolved]
    | some L =>
      by_cases hmem : g ∈ L
      · rw [unregisterListeningAction_of_mem b name g L hL hmem]
        by_cases hname : name = E
        · subst hname
          by_cases hg : g = h
          · subst hg
            simp only [Promise.isResolved, decide_True, Bool.and_self, if_true,
              storeListening_actionListeningMap, Function.update_same, Option.getD_some]
            exact List.count_eq_zero.mpr (by simp [List.mem_filter])
          · have hcount : (L.filter (fun x => decide (x ≠ g))).count h = L.count h :=
              List.count_filter (by simpa using fun hh => hg hh.symm)
            simp only [Promise.isResolved, hg, hL, decide_True, decide_False, Bool.and_false,
              Bool.false_and, Bool.and_true, Bool.true_and, if_false,
              storeListening_actionListeningMap, Function.update_same,
              Option.getD_some, Bool.false_eq_true]
            exact hcount
        · have hne : E ≠ name := fun hh => hname hh.symm
          simp [hname, Function.update_noteq hne]
      · rw [unregisterListeningAction_of_not_mem b name g L hL hmem]
        simp [Promise.isResolved]
  cases op with
  | register name g =>
    by_cases hname : name = E
    · subst hname
      rw [ListeningOp.perform, registerListeningAction_own b name g (by simp [hE])]
      by_cases hg : g = h
      · subst hg
        simp [isRemoval, isRegistration]
      · have hgh : ¬ (g == h) = true := by simpa using hg
        simp [isRemoval, isRegistration, hg, List.count_cons, hgh]
    · have hne : E ≠ name := fun hh => hname hh.symm
      by_cases hin : isInherited name = true
      · simp [ListeningOp.perform, registerListeningAction, hin, isRemoval, isRegistration,
          hname]
      · simp [ListeningOp.perform, registerListeningAction, hin, isRemoval, isRegistration,
          hname, Function.update_noteq hne]
  | unregister name g =>
    simp only [ListeningOp.perform, isRemoval, isRegistration]
    rw [hun name g]
    simp
  | prune name g =>
    simp only [ListeningOp.perform, isRemoval, isRegistration]
    rw [hun name g]
    simp

/-- After a sequence of calls on the listening registry, h occurs in the list
of E as often as it was registered since its last successful removal, on top of
the occurrences at the start when no removal happened. -/
theorem performAll_count (ops : List ListeningOp) (b : Broadcaster) (E : String) (h : Handler)
    (hE : isInherited E = false) :
    ((((performAll ops b).2).actionListeningMap E).getD []).count h
      = (if (performAll ops b).1.any (isRemoval E h) = true then 0
          else ((b.actionListeningMap E).getD []).count h)
        + registrationsSinceRemoval E h (performAll ops b).1 := by
  induction ops generalizing b with
  | nil => simp [performAll, registrationsSinceRemoval]
  | cons op ops ih =>
    have hstep := perform_count op b E h hE
    have hrest := ih (op.perform b).2
    simp only [performAll, registrationsSinceRemoval, List.any_cons]
    rw [hrest, hstep]
    by_cases hlater : (performAll ops (op.perform b).2).1.any (isRemoval E h) = true
    · simp [hlater]
    · have hfalse : (performAll ops (op.perform b).2).1.any (isRemoval E h) = false := by
        simpa using hlater
      by_cases hrem : isRemoval E h (op, (op.perform b).1) = true
      · simp [hfalse, hrem]
      · simp only [hfalse, hrem, Bool.false_eq_true, if_false, Bool.or_false, and_true]
        omega

/-- The count of registrations since the last removal is positive exactly when
the history holds a call that registers h for E with no successful removal of
h from E after it. -/
theorem registrationsSinceRemoval_pos_iff (E : String) (h : Handler)
    (history : List (ListeningOp × Bool)) :
    0 < registrationsSinceRemoval E h history ↔
      ∃ earlier later succeeded,
        history = earlier ++ (ListeningOp.register E h, succeeded) :: later ∧
        later.any (isRemoval E h) = false := by
  induction history with
  | nil => simp [registrationsSinceRemoval]
  | cons entry rest ih =>
    constructor
    · intro hpos
      by_cases hfirst : isRegistration E h entry = true ∧ rest.any (isRemoval E h) = false
      · obtain ⟨op, succeeded⟩ := entry
        refine ⟨[], rest, succeeded, ?_, hfirst.2⟩
        cases op with
        | register name g =>
          have hreg := hfirst.1
          simp only [isRegistration, Bool.and_eq_true, decide_eq_true_eq] at hreg
          obtain ⟨rfl, rfl⟩ := hreg
          rfl
        | unregister name g => simp [isRegistration] at hfirst
        | prune name g => simp [isRegistration] at hfirst
      · have hrest : 0 < registrationsSinceRemoval E h rest := by
          simp only [registrationsSinceRemoval, hfirst, if_false] at hpos
          omega
        obtain ⟨earlier, later, succeeded, heq, hlater⟩ := ih.mp hrest
        exact ⟨entry :: earlier, later, succeeded, by rw [heq, List.cons_append], hlater⟩
    · rintro ⟨earlier, later, succeeded, heq, hlater⟩
      cases earlier with
      | nil =>
        simp only [List.nil_append, List.cons.injEq] at heq
        obtain ⟨rfl, rfl⟩ := heq
        simp [registrationsSinceRemoval, isRegistration, hlater]
      | cons first earlier =>
        simp only [List.cons_append, List.cons.injEq] at heq
        have hrest := ih.mpr ⟨earlier, later, succeeded, heq.2, hlater⟩
        simp only [registrationsSinceRemoval]
        omega

/-- For a name E that is not inherited from `Object.prototype`: after every
finite sequence of `registerListeningAction` and `unregisterListeningAction`
calls and prunings of dead listeners, started on the empty Broadcaster, the
number of occurrences of h in the listener list of E is the number of calls
`registerListeningAction(E, h)` made after the last successful removal of h
from E; so h occurs in the list exactly when some such call has no successful
removal of h from E after it. -/
theorem listening_registry_invariant (ops : List ListeningOp) (E : String) (h : Handler)
    (hE : isInherited E = false) :
    ((((performAll ops Broadcaster.constructor).2).actionListeningMap E).getD []).count h
        = registrationsSinceRemoval E h (performAll ops Broadcaster.constructor).1 ∧
      (h ∈ (((performAll ops Broadcaster.constructor).2).actionListeningMap E).getD [] ↔
        ∃ earlier later succeeded,
          (performAll ops Broadcaster.constructor).1
            = earlier ++ (ListeningOp.register E h, succeeded) :: later ∧
          later.any (isRemoval E h) = false) := by
  have hcount : ((((performAll ops Broadcaster.constructor).2).actionListeningMap E).getD
      []).count h = registrationsSinceRemoval E h (performAll ops Broadcaster.constructor).1 := by
    rw [performAll_count ops Broadcaster.constructor E h hE]
    simp [Broadcaster.constructor]
  refine ⟨hcount, ?_⟩
  rw [← registrationsSinceRemoval_pos_iff, ← hcount, List.count_pos_iff]

/-- C19, the input on which the code departs from it: on a new Broadcaster the
call `registerListeningAction("toString", h)` is made and no removal follows,
so the claim counts one registration of h for "toString"; the call is rejected
(line 95 calls the missing method `concat` of the function inherited from
`Object.prototype`) and h does not occur in any listener list of "toString". -/
theorem registration_under_inherited_name_is_lost :
    (performAll [.register "toString" ⟨1⟩] Broadcaster.constructor).1
        = [(.register "toString" ⟨1⟩, false)] ∧
      registrationsSinceRemoval "toString" ⟨1⟩
        (performAll [.register "toString" ⟨1⟩] Broadcaster.constructor).1 = 1 ∧
      (performAll [.register "toString" ⟨1⟩]
        Broadcaster.constructor).2.actionListeningMap "toString" = none ∧
      ((((performAll [.register "toString" ⟨1⟩]
        Broadcaster.constructor).2).actionListeningMap "toString").getD []).count ⟨1⟩ = 0 := by
  simp [performAll, ListeningOp.perform, registerListeningAction, toString_inherited,
    promiseTry, Promise.isResolved, registrationsSinceRemoval, isRegistration,
    Broadcaster.constructor]

/-! ## C20 -/

/-- C20, refuted as stated: it is not the case that whenever E has a responder
r and a live listener of E fails, the broadcast does not call r at all.  On
`throwingHost`, with handler 1 both the responder and the first listener of
"speak" and the listener 2 failing, the broadcast calls handler 1, as a
listener. -/
theorem broadcastEvent_calls_responder_as_listener :
    ¬ (∀ (host : Host) (b : Broadcaster) (E : String) (data : Value) (r : Handler)
        (L : List Handler) (f : Handler),
        b.actionRespondingMap E = some r → b.actionListeningMap E = some L →
        f ∈ L → host.isDeadWrapper f = false →
        (∀ st, ∃ e, (host.invoke f E data st).1 = .rejected e) →
        ∀ c ∈ (broadcastEvent host b E data).calls, c.handler ≠ r) := by
  intro h
  have h1 := h throwingHost (Broadcaster.only "speak" (some ⟨1⟩) (some [⟨1⟩, ⟨2⟩, ⟨3⟩]))
    "speak" .null ⟨1⟩ [⟨1⟩, ⟨2⟩, ⟨3⟩] ⟨2⟩ (only_actionRespondingMap_self _ _ _ speak_own)
    (only_actionListeningMap_self _ _ _ speak_own) (by simp) rfl
    (fun _ => ⟨.thrown (.string "listener failed"), rfl⟩) (callOf "speak" .null ⟨1⟩)
  have hcalls := (broadcastEvent_of_listener_rejected throwingHost
    (Broadcaster.only "speak" (some ⟨1⟩) (some [⟨1⟩, ⟨2⟩, ⟨3⟩])) "speak" .null
    [⟨1⟩, ⟨2⟩, ⟨3⟩] ⟨2⟩ (only_actionListeningMap_self _ _ _ speak_own) (by simp) rfl
    (fun _ => ⟨.thrown (.string "listener failed"), rfl⟩)).2
  rw [hcalls] at h1
  exact h1 (by simp [throwingHost, Host.settling, List.filter]) rfl

/-- C20, as amended: when E has a responder r and a live listener f of E fails
when called, `broadcastEvent(E, data)` is rejected and its calls are exactly the
calls of the live entries of the listener list: r is not called as the
responder, so r is not called at all unless r is itself an entry of the
listener list. -/
theorem broadcastEvent_no_responder_call_after_failure (host : Host) (b : Broadcaster)
    (E : String) (data : Value) (r : Handler) (L : List Handler) (f : Handler)
    (_hr : b.actionRespondingMap E = some r)
    (hL : b.actionListeningMap E = some L)
    (hmem : f ∈ L) (hlive : host.isDeadWrapper f = false)
    (hfail : ∀ st, ∃ e, (host.invoke f E data st).1 = .rejected e) :
    (∃ e, (broadcastEvent host b E data).promise = .rejected e) ∧
      (broadcastEvent host b E data).calls
        = (L.filter (fun h => !host.isDeadWrapper h)).map (callOf E data) ∧
      (r ∉ L → ∀ c ∈ (broadcastEvent host b E data).calls, c.handler ≠ r) := by
  obtain ⟨hrej, hcalls⟩ :=
    broadcastEvent_of_listener_rejected host b E data L f hL hmem hlive hfail
  refine ⟨hrej, hcalls, ?_⟩
  intro hnot c hc
  rw [hcalls] at hc
  obtain ⟨l, hl, rfl⟩ := List.mem_map.mp hc
  intro hlr
  exact hnot (by simpa [callOf, ← hlr] using (List.mem_filter.mp hl).1)

theorem broadcastEvent_no_responder_call_after_failure_witness :
    (∃ e, (broadcastEvent throwingHost (Broadcaster.only "speak" (some ⟨4⟩) (some [⟨1⟩, ⟨2⟩, ⟨3⟩]))
        "speak" .null).promise = .rejected e) ∧
      (broadcastEvent throwingHost (Broadcaster.only "speak" (some ⟨4⟩) (some [⟨1⟩, ⟨2⟩, ⟨3⟩]))
        "speak" .null).calls
        = ([(⟨1⟩ : Handler), ⟨2⟩, ⟨3⟩].filter (fun h => !throwingHost.isDeadWrapper h)).map
            (callOf "speak" .null) ∧
      ((⟨4⟩ : Handler) ∉ [(⟨1⟩ : Handler), ⟨2⟩, ⟨3⟩] →
        ∀ c ∈ (broadcastEvent throwingHost
          (Broadcaster.only "speak" (some ⟨4⟩) (some [⟨1⟩, ⟨2⟩, ⟨3⟩])) "speak" .null).calls,
          c.handler ≠ ⟨4⟩) :=
  broadcastEvent_no_responder_call_after_failure throwingHost
    (Broadcaster.only "speak" (some ⟨4⟩) (some [⟨1⟩, ⟨2⟩, ⟨3⟩])) "speak" .null ⟨4⟩
    [⟨1⟩, ⟨2⟩, ⟨3⟩] ⟨2⟩ (only_actionRespondingMap_self _ _ _ speak_own)
    (only_actionListeningMap_self _ _ _ speak_own) (by simp) rfl
    (fun _ => ⟨.thrown (.string "listener failed"), rfl⟩)

/-! ## C21 -/

/-- C21: when the same listener reference h is registered twice for E, with
kill switches k1 and k2, calling k1 succeeds and removes both entries of h (no
occurrence of h is left in the list of E), and calling k2 afterwards is
rejected with the handler-not-registered error and changes nothing. -/
theorem killSwitch_of_repeated_registration (b : Broadcaster) (E : String) (h : Handler)
    (k1 k2 : KillSwitch) (b1 b2 : Broadcaster)
    (hfirst : registerListeningAction b E h = (.resolved k1, b1))
    (hsecond : registerListeningAction b1 E h = (.resolved k2, b2)) :
    b2.actionListeningMap E = some ((b.actionListeningMap E).getD [] ++ [h, h]) ∧
      (k1.call b2).1 = .resolved .undefined ∧
      (k1.call b2).2.actionListeningMap E
        = some (((b.actionListeningMap E).getD []).filter (fun x => decide (x ≠ h))) ∧
      (((k1.call b2).2.actionListeningMap E).getD []).count h = 0 ∧
      k2.call (k1.call b2).2 = (.rejected (.handlerNotRegistered E), (k1.call b2).2) := by
  have hE : ¬ isInherited E = true := by
    intro hin
    simp [registerListeningAction, hin, promiseTry] at hfirst
  rw [registerListeningAction_own b E h hE] at hfirst
  rw [registerListeningAction_own b1 E h hE] at hsecond
  obtain ⟨hk1, hb1⟩ := Prod.mk.inj hfirst
  obtain ⟨hk2, hb2⟩ := Prod.mk.inj hsecond
  have hk1r := Promise.resolved.inj hk1
  have hk2r := Promise.resolved.inj hk2
  subst hk1r
  subst hk2r
  have hlist1 : b1.actionListeningMap E = some ((b.actionListeningMap E).getD [] ++ [h]) := by
    rw [← hb1]; simp
  have hlist2 : b2.actionListeningMap E
      = some ((b.actionListeningMap E).getD [] ++ [h, h]) := by
    rw [← hb2]; simp [hlist1]
  have hcall := unregisterListeningAction_of_mem b2 E h _ hlist2 (by simp)
  have hfilter : ((b.actionListeningMap E).getD [] ++ [h, h]).filter (fun x => decide (x ≠ h))
      = ((b.actionListeningMap E).getD []).filter (fun x => decide (x ≠ h)) := by
    simp [List.filter_append, List.filter]
  simp only [KillSwitch.call]
  rw [hcall, hfilter]
  refine ⟨hlist2, rfl, by simp, ?_, ?_⟩
  · simp only [Function.update_same, Option.getD_some]
    exact List.count_eq_zero.mpr (by simp [List.mem_filter])
  · exact unregisterListeningAction_of_not_mem _ E h
      (((b.actionListeningMap E).getD []).filter (fun x => decide (x ≠ h)))
      (by simp) (by simp [List.mem_filter])

theorem killSwitch_of_repeated_registration_witness :
    (registerListeningAction
        (registerListeningAction (Broadcaster.only "speak" none (some [⟨3⟩])) "speak" ⟨1⟩).2
        "speak" ⟨1⟩).2.actionListeningMap "speak"
      = some (((Broadcaster.only "speak" none (some [⟨3⟩])).actionListeningMap "speak").getD []
          ++ [⟨1⟩, ⟨1⟩]) ∧
    ((KillSwitch.listening "speak" ⟨1⟩).call
        (registerListeningAction
          (registerListeningAction (Broadcaster.only "speak" none (some [⟨3⟩])) "speak" ⟨1⟩).2
          "speak" ⟨1⟩).2).1 = .resolved .undefined ∧
    ((KillSwitch.listening "speak" ⟨1⟩).call
        (registerListeningAction
          (registerListeningAction (Broadcaster.only "speak" none (some [⟨3⟩])) "speak" ⟨1⟩).2
          "speak" ⟨1⟩).2).2.actionListeningMap "speak"
      = some ((((Broadcaster.only "speak" none (some [⟨3⟩])).actionListeningMap "speak").getD
          []).filter (fun x => decide (x ≠ ⟨1⟩))) ∧
    ((((KillSwitch.listening "speak" ⟨1⟩).call
        (registerListeningAction
          (registerListeningAction (Broadcaster.only "speak" none (some [⟨3⟩])) "speak" ⟨1⟩).2
          "speak" ⟨1⟩).2).2.actionListeningMap "speak").getD []).count ⟨1⟩ = 0 ∧
    (KillSwitch.listening "speak" ⟨1⟩).call
        ((KillSwitch.listening "speak" ⟨1⟩).call
          (registerListeningAction
            (registerListeningAction (Broadcaster.only "speak" none (some [⟨3⟩])) "speak" ⟨1⟩).2
            "speak" ⟨1⟩).2).2
      = (.rejected (.handlerNotRegistered "speak"),
          ((KillSwitch.listening "speak" ⟨1⟩).call
            (registerListeningAction
              (registerListeningAction (Broadcaster.only "speak" none (some [⟨3⟩]))
                "speak" ⟨1⟩).2
              "speak" ⟨1⟩).2).2) :=
  killSwitch_of_repeated_registration (Broadcaster.only "speak" none (some [⟨3⟩])) "speak" ⟨1⟩
    (.listening "speak" ⟨1⟩) (.listening "speak" ⟨1⟩)
    (registerListeningAction (Broadcaster.only "speak" none (some [⟨3⟩])) "speak" ⟨1⟩).2
    (registerListeningAction
      (registerListeningAction (Broadcaster.only "speak" none (some [⟨3⟩])) "speak" ⟨1⟩).2
      "speak" ⟨1⟩).2
    rfl rfl

/-! ## C22 -/

/-- C22: `registerListeningAction` and `unregisterListeningAction` on E leave
the responder table and the listener list of every name other than E as they
were, and `registerRespondingAction` and `unregisterRespondingAction` on E leave
every listener list and the responder of every name other than E as they were,
whether the call succeeds or fails. -/
theorem registries_are_independent (b : Broadcaster) (E : String) (h : Handler) :
    ((registerListeningAction b E h).2.actionRespondingMap = b.actionRespondingMap ∧
      ∀ name, name ≠ E →
        (registerListeningAction b E h).2.actionListeningMap name = b.actionListeningMap name) ∧
    ((unregisterListeningAction b E h).2.actionRespondingMap = b.actionRespondingMap ∧
      ∀ name, name ≠ E →
        (unregisterListeningAction b E h).2.actionListeningMap name
          = b.actionListeningMap name) ∧
    ((registerRespondingAction b E h).2.actionListeningMap = b.actionListeningMap ∧
      ∀ name, name ≠ E →
        (registerRespondingAction b E h).2.actionRespondingMap name
          = b.actionRespondingMap name) ∧
    ((unregisterRespondingAction b E h).2.actionListeningMap = b.actionListeningMap ∧
      ∀ name, name ≠ E →
        (unregisterRespondingAction b E h).2.actionRespondingMap name
          = b.actionRespondingMap name) := by
  have hregl : (registerListeningAction b E h).2.actionRespondingMap = b.actionRespondingMap ∧
      ∀ name, name ≠ E →
        (registerListeningAction b E h).2.actionListeningMap name
          = b.actionListeningMap name := by
    by_cases hE : isInherited E = true
    · simp [registerListeningAction, hE]
    · rw [registerListeningAction_own b E h hE]
      exact ⟨rfl, fun name hname => by simp [Function.update_noteq hname]⟩
  have hunl : (unregisterListeningAction b E h).2.actionRespondingMap = b.actionRespondingMap ∧
      ∀ name, name ≠ E →
        (unregisterListeningAction b E h).2.actionListeningMap name
          = b.actionListeningMap name := by
    cases hL : b.actionListeningMap E with
    | none =>
      by_cases hE : isInherited E = true
      · simp [unregisterListeningAction, hE]
      · simp [unregisterListeningAction, hE, hL]
    | some L =>
      by_cases hmem : h ∈ L
      · rw [unregisterListeningAction_of_mem b E h L hL hmem]
        exact ⟨rfl, fun name hname => by simp [Function.update_noteq hname]⟩
      · rw [unregisterListeningAction_of_not_mem b E h L hL hmem]
        exact ⟨rfl, fun _ _ => rfl⟩
  have hregr : (registerRespondingAction b E h).2.actionListeningMap = b.actionListeningMap ∧
      ∀ name, name ≠ E →
        (registerRespondingAction b E h).2.actionRespondingMap name
          = b.actionRespondingMap name := by
    by_cases hE : isInherited E = true
    · simp [registerRespondingAction, hE]
    · cases hr : b.actionRespondingMap E with
      | none =>
        rw [registerRespondingAction_own b E h hE hr]
        exact ⟨rfl, fun name hname => by simp [Function.update_noteq hname]⟩
      | some r => simp [registerRespondingAction, hE, hr]
  have hunr : (unregisterRespondingAction b E h).2.actionListeningMap = b.actionListeningMap ∧
      ∀ name, name ≠ E →
        (unregisterRespondingAction b E h).2.actionRespondingMap name
          = b.actionRespondingMap name := by
    by_cases hE : isInherited E = true
    · simp [unregisterRespondingAction, hE]
    · cases hr : b.actionRespondingMap E with
      | none => simp [unregisterRespondingAction, hE, hr]
      | some r =>
        simp only [unregisterRespondingAction, hE, hr, dite_false, Option.isNone_some,
          if_false, Bool.false_eq_true]
        exact ⟨rfl, fun name hname => by simp [Function.update_noteq hname]⟩
  exact ⟨hregl, hunl, hregr, hunr⟩

/-! ## C23 -/

/-- For a non-empty installed list, `resolveVoice` resolves to the first voice
that passes the name filter, else the first that passes the language filter,
else the first that passes the language-prefix filter. -/
theorem resolveVoice_eq_find (voices : List Voice) (mappedVoice : MappedVoice)
    (hne : voices ≠ []) :
    resolveVoice (some voices) mappedVoice
      = .resolved (((voices.find? (matchesName mappedVoice)).or
          (voices.find? (matchesLanguage mappedVoice))).or
          (voices.find? (matchesLanguagePrefix mappedVoice))) := by
  have hlen : voices.length ≠ 0 := fun h0 => hne (List.length_eq_zero.mp h0)
  have hhead : ([] ++ voices.filter (matchesName mappedVoice)
        ++ voices.filter (matchesLanguage mappedVoice)
        ++ voices.filter (matchesLanguagePrefix mappedVoice)).head?
      = ((voices.find? (matchesName mappedVoice)).or
          (voices.find? (matchesLanguage mappedVoice))).or
          (voices.find? (matchesLanguagePrefix mappedVoice)) := by
    simp only [List.nil_append, List.head?_append, List.filter_head?]
  simp only [resolveVoice, getVoices, hlen, if_false]
  split
  · rename_i hzero
    rw [← hhead, List.length_eq_zero.mp hzero]
    rfl
  · rw [hhead]

/-- C23, refuted as stated: it is not the case that for every non-empty
installed list `resolveVoice` resolves to the voice the claim names.  With the
single installed voice A of empty lang and the mapped voice of name "B" and
empty lang, the claim names A (its lang equals the mapped lang) and
`resolveVoice` resolves to `null`. -/
theorem resolveVoice_is_not_firstCandidateAsClaimed :
    ¬ (∀ (voices : List Voice) (mappedVoice : MappedVoice), voices ≠ [] →
        resolveVoice (some voices) mappedVoice
          = .resolved (firstCandidateAsClaimed voices mappedVoice)) := by
  intro h
  have h1 := h [⟨0, "A", ""⟩] ⟨some "B", some ""⟩ (by simp)
  rw [resolveVoice_eq_find _ _ (by simp)] at h1
  revert h1
  simp [firstCandidateAsClaimed, matchesName, matchesLanguage, matchesLanguagePrefix, truthy,
    substr]

/-- C23, as amended: for every non-empty installed voice list and every mapped
voice, `resolveVoice` resolves to the first voice (in list order) whose name
equals `mappedVoice.name` when that name is non-empty and such a voice exists;
otherwise, when `mappedVoice.lang` is non-empty, to the first voice whose lang
equals it; otherwise, when `mappedVoice.lang` is non-empty, to the first voice
whose lang shares its first two UTF-16 code units with it; it resolves to
`null` exactly when no voice matches in any of these three ways, and a result
other than `null` is an element of the installed list. -/
theorem resolveVoice_picks_first (voices : List Voice) (mappedVoice : MappedVoice)
    (hne : voices ≠ []) :
    resolveVoice (some voices) mappedVoice
        = .resolved (((voices.find? (matchesName mappedVoice)).or
            (voices.find? (matchesLanguage mappedVoice))).or
            (voices.find? (matchesLanguagePrefix mappedVoice))) ∧
      (∀ voice, matchesName mappedVoice voice = true ↔
        ∃ name, mappedVoice.name = some name ∧ name ≠ "" ∧ voice.name = name) ∧
      (∀ voice, matchesLanguage mappedVoice voice = true ↔
        ∃ lang, mappedVoice.lang = some lang ∧ lang ≠ "" ∧ voice.lang = lang) ∧
      (∀ voice, matchesLanguagePrefix mappedVoice voice = true ↔
        ∃ lang, mappedVoice.lang = some lang ∧ lang ≠ "" ∧
          substr voice.lang 0 2 = substr lang 0 2) ∧
      (resolveVoice (some voices) mappedVoice = .resolved none ↔
        ∀ voice ∈ voices, matchesName mappedVoice voice = false ∧
          matchesLanguage mappedVoice voice = false ∧
          matchesLanguagePrefix mappedVoice voice = false) ∧
      (∀ voice, resolveVoice (some voices) mappedVoice = .resolved (some voice) →
        voice ∈ voices) := by
  have heq := resolveVoice_eq_find voices mappedVoice hne
  refine ⟨heq, ?_, ?_, ?_, ?_, ?_⟩
  · intro voice
    cases hname : mappedVoice.name with
    | none => simp [matchesName, truthy, hname]
    | some name =>
      simp only [matchesName, truthy, hname, Bool.and_eq_true, decide_eq_true_eq,
        Option.some.injEq, exists_eq_left']
  · intro voice
    cases hlang : mappedVoice.lang with
    | none => simp [matchesLanguage, truthy, hlang]
    | some lang =>
      simp only [matchesLanguage, truthy, hlang, Bool.and_eq_true, decide_eq_true_eq,
        Option.some.injEq, exists_eq_left']
  · intro voice
    cases hlang : mappedVoice.lang with
    | none => simp [matchesLanguagePrefix, truthy, hlang]
    | some lang =>
      simp only [matchesLanguagePrefix, truthy, hlang, Bool.and_eq_true, decide_eq_true_eq,
        Option.map_some', Option.some.injEq, exists_eq_left']
  · rw [heq]
    simp only [Promise.resolved.injEq, Option.or_eq_none, List.find?_eq_none,
      Bool.not_eq_true]
    constructor
    · rintro ⟨⟨h1, h2⟩, h3⟩ voice hv
      exact ⟨h1 voice hv, h2 voice hv, h3 voice hv⟩
    · intro h
      exact ⟨⟨fun v hv => (h v hv).1, fun v hv => (h v hv).2.1⟩, fun v hv => (h v hv).2.2⟩
  · intro voice hres
    rw [heq] at hres
    simp only [Promise.resolved.injEq, Option.or_eq_some] at hres
    rcases hres with (h | ⟨_, h⟩) | ⟨_, h⟩ <;> exact List.mem_of_find?_eq_some h

theorem resolveVoice_picks_first_witness :
    resolveVoice (some exampleVoices) ⟨some "Zed", some "en-AU"⟩
        = .resolved (((exampleVoices.find? (matchesName ⟨some "Zed", some "en-AU"⟩)).or
            (exampleVoices.find? (matchesLanguage ⟨some "Zed", some "en-AU"⟩))).or
            (exampleVoices.find? (matchesLanguagePrefix ⟨some "Zed", some "en-AU"⟩))) ∧
      (∀ voice, matchesName ⟨some "Zed", some "en-AU"⟩ voice = true ↔
        ∃ name, (⟨some "Zed", some "en-AU"⟩ : MappedVoice).name = some name ∧ name ≠ "" ∧
          voice.name = name) ∧
      (∀ voice, matchesLanguage ⟨some "Zed", some "en-AU"⟩ voice = true ↔
        ∃ lang, (⟨some "Zed", some "en-AU"⟩ : MappedVoice).lang = some lang ∧ lang ≠ "" ∧
          voice.lang = lang) ∧
      (∀ voice, matchesLanguagePrefix ⟨some "Zed", some "en-AU"⟩ voice = true ↔
        ∃ lang, (⟨some "Zed", some "en-AU"⟩ : MappedVoice).lang = some lang ∧ lang ≠ "" ∧
          substr voice.lang 0 2 = substr lang 0 2) ∧
      (resolveVoice (some exampleVoices) ⟨some "Zed", some "en-AU"⟩ = .resolved none ↔
        ∀ voice ∈ exampleVoices, matchesName ⟨some "Zed", some "en-AU"⟩ voice = false ∧
          matchesLanguage ⟨some "Zed", some "en-AU"⟩ voice = false ∧
          matchesLanguagePrefix ⟨some "Zed", some "en-AU"⟩ voice = false) ∧
      (∀ voice, resolveVoice (some exampleVoices) ⟨some "Zed", some "en-AU"⟩
          = .resolved (some voice) → voice ∈ exampleVoices) :=
  resolveVoice_picks_first exampleVoices ⟨some "Zed", some "en-AU"⟩ (by simp [exampleVoices])

/-- On the example voices, the mapped voice "Zed" / "en-AU" matches no name and
no lang, and resolves to the first voice with the prefix "en". -/
theorem resolveVoice_example :
    resolveVoice (some exampleVoices) ⟨some "Zed", some "en-AU"⟩
      = .resolved (some ⟨0, "Alice", "en-US"⟩) := by
  decide

/-- The prefix is counted in UTF-16 code units: a lang that starts with a
character outside the basic plane has that character's surrogate pair as its
first two code units, so "𝐀b" and "𝐀c" share their prefix and the voice is
picked. -/
theorem resolveVoice_surrogate_pair_prefix :
    substr "𝐀b" 0 2 = [55349, 56320] ∧
      substr "𝐀c" 0 2 = [55349, 56320] ∧
      resolveVoice (some [⟨0, "Alice", "𝐀b"⟩]) ⟨some "Zed", some "𝐀c"⟩
        = .resolved (some ⟨0, "Alice", "𝐀b"⟩) := by
  decide

end Talkie
